import Mathlib

/-!
# ludev: the readiness-driven dispatch loop of `src/ludev.c`

The program talks to the operating system only through system calls and
through `syslog`.  The embedding makes both explicit:

* every call the program issues is appended, with its arguments, to a trace
  (`World.trace`);
* the result of every call is supplied by an oracle (`Kernel`), indexed by the
  number of calls issued so far.  The program is deterministic, so every run
  on a real kernel is the run under some oracle; a statement over all oracles
  covers every outcome of the system calls.

Functions of the source become functions from a `World` to a return value and
the `World` after the call.  The `while (1)` of `ludev_loop` is unrolled by a
fuel argument that counts iterations.
-/

namespace Ludev

/-! ## Constants of the system headers (Linux) -/

def EINTR : Int := 4

def EPOLLIN : Nat := 0x001
def EPOLLERR : Nat := 0x008
def EPOLLHUP : Nat := 0x010
def EPOLLONESHOT : Nat := 2 ^ 30

def EPOLL_CTL_ADD : Nat := 1
def EPOLL_CTL_MOD : Nat := 3
def EPOLL_CLOEXEC : Nat := 0o2000000

def AF_NETLINK : Nat := 16
def SOCK_RAW : Nat := 3
def SOCK_CLOEXEC : Nat := 0o2000000
def SOCK_NONBLOCK : Nat := 0o4000
def NETLINK_KOBJECT_UEVENT : Nat := 15

def LOG_ERR : Nat := 3
def LOG_INFO : Nat := 6
def LOG_PID : Nat := 0x01
def LOG_CONS : Nat := 0x02
def LOG_USER : Nat := 8

/-! ## Data model -/

/-- One `char` of a buffer, as the value of the byte. -/
abbrev Byte := Fin 256

/-- The union `epoll_data_t`.  The program reads and writes it through its
member `fd` and copies it whole; `rest` stands for the bytes of the union that
the member `fd` does not cover. -/
structure epoll_data where
  fd : Int
  rest : Nat
deriving DecidableEq, Repr

/-- The record `struct epoll_event`. -/
structure epoll_event where
  events : Nat
  data : epoll_data
deriving DecidableEq, Repr

instance : Inhabited epoll_event := ⟨⟨0, ⟨0, 0⟩⟩⟩

/-- The Loop Context `struct ludev_s` (declared in `ludev.h`): the three
members the source uses. -/
structure ludev_s where
  sentinel : Int
  epollfd : Int
  netlinkfd : Int
deriving DecidableEq, Repr

/-- An argument of a `syslog` format, as the text it contributes. -/
inductive FmtArg where
  | file
  | line (n : Nat)
  | func (name : String)
  | strerror (errnum : Int)
  | int (v : Int)
  | str (bytes : List Byte)
deriving DecidableEq, Repr

/-- A call the program issues, with its arguments. -/
inductive Action where
  | openlog (ident : String) (option : Nat) (facility : Nat)
  | syslog (priority : Nat) (format : String) (args : List FmtArg)
  | epoll_create1 (flags : Nat)
  | socket (domain : Nat) (ty : Nat) (protocol : Nat)
  | getpid
  | bind (fd : Int) (nl_family : Nat) (nl_pid : Int) (nl_groups : Nat)
  | epoll_ctl (epfd : Int) (op : Nat) (fd : Int) (event : epoll_event)
  | epoll_wait (epfd : Int) (maxevents : Nat) (timeout : Int)
  | read (fd : Int) (count : Nat)
deriving DecidableEq, Repr

/-- Result of one system call: success with a value, or failure with the
`errno` it sets. -/
inductive Outcome (α : Type) where
  | ok (v : α)
  | fail (errno : Int)
deriving DecidableEq, Repr

/-- The operating system as an oracle.  Each field answers the call issued
when `n` calls have been issued before it.  `stack n` is the indeterminate
content of an automatic array whose lifetime starts at that moment. -/
structure Kernel where
  epoll_create1 : Nat → Outcome Nat
  socket : Nat → Outcome Nat
  getpid : Nat → Int
  bind : Nat → Outcome Unit
  epoll_ctl : Nat → Outcome Unit
  epoll_wait : Nat → Outcome (List epoll_event)
  read : Nat → Outcome (List Byte)
  stack : Nat → List Byte

/-- Observable state of a run: the current `errno` and the calls issued so
far, oldest first. -/
structure World where
  errno : Int
  trace : List Action
deriving DecidableEq, Repr

/-- Number of calls issued so far. -/
def World.now (w : World) : Nat := w.trace.length

/-- Record one more call. -/
def World.emit (w : World) (a : Action) : World :=
  { w with trace := w.trace ++ [a] }

/-- Record a failed call: the call is appended and `errno` is set. -/
def World.failed (w : World) (a : Action) (e : Int) : World :=
  { errno := e, trace := w.trace ++ [a] }

/-- Calls issued between the state `w` and a later state `w2`. -/
def World.since (w2 w : World) : List Action := w2.trace.drop w.trace.length

/-- Byte strings that one call hands to the log through a `%.*s` conversion. -/
def Action.payload : Action → List (List Byte)
  | .syslog _ _ args =>
    args.filterMap (fun a => match a with
      | .str bytes => some bytes
      | _ => none)
  | _ => []

/-- Byte strings handed to the log by the calls of a trace, in order. -/
def payloads (tr : List Action) : List (List Byte) := tr.flatMap Action.payload

/-- The call is a `syslog` of priority `LOG_ERR`. -/
def Action.isErrLog : Action → Bool
  | .syslog p _ _ => p == LOG_ERR
  | _ => false

/-- The call is a `read`. -/
def Action.isRead : Action → Bool
  | .read _ _ => true
  | _ => false

/-- The call is an `epoll_ctl`. -/
def Action.isCtl : Action → Bool
  | .epoll_ctl _ _ _ _ => true
  | _ => false

/-! ## System calls -/

/-- System call `read(fd, buf, count)`: on success at most `count` bytes are
stored at the start of `buf` and their number is returned. -/
def sys_read (k : Kernel) (fd : Int) (buf : List Byte) (count : Nat) (w : World) :
    Int × List Byte × World :=
  match k.read w.now with
  | .ok bytes =>
    let got := bytes.take count
    ((got.length : Int), got ++ buf.drop got.length, w.emit (.read fd count))
  | .fail e => (-1, buf, w.failed (.read fd count) e)

/-- System call `epoll_ctl(epfd, op, fd, event)`. -/
def sys_epoll_ctl (k : Kernel) (epfd : Int) (op : Nat) (fd : Int) (event : epoll_event)
    (w : World) : Int × World :=
  match k.epoll_ctl w.now with
  | .ok _ => (0, w.emit (.epoll_ctl epfd op fd event))
  | .fail e => (-1, w.failed (.epoll_ctl epfd op fd event) e)

/-- System call `epoll_wait(epfd, events, maxevents, timeout)`: on success at
most `maxevents` records are stored at the start of `events` and their number
is returned.  The list returned holds the records stored. -/
def sys_epoll_wait (k : Kernel) (epfd : Int) (maxevents : Nat) (timeout : Int) (w : World) :
    Int × List epoll_event × World :=
  match k.epoll_wait w.now with
  | .ok ready =>
    let stored := ready.take maxevents
    ((stored.length : Int), stored, w.emit (.epoll_wait epfd maxevents timeout))
  | .fail e => (-1, [], w.failed (.epoll_wait epfd maxevents timeout) e)

/-- System call `epoll_create1(flags)`. -/
def sys_epoll_create1 (k : Kernel) (flags : Nat) (w : World) : Int × World :=
  match k.epoll_create1 w.now with
  | .ok fd => ((fd : Int), w.emit (.epoll_create1 flags))
  | .fail e => (-1, w.failed (.epoll_create1 flags) e)

/-- System call `socket(domain, type, protocol)`. -/
def sys_socket (k : Kernel) (domain ty protocol : Nat) (w : World) : Int × World :=
  match k.socket w.now with
  | .ok fd => ((fd : Int), w.emit (.socket domain ty protocol))
  | .fail e => (-1, w.failed (.socket domain ty protocol) e)

/-- System call `getpid()`; it cannot fail. -/
def sys_getpid (k : Kernel) (w : World) : Int × World :=
  (k.getpid w.now, w.emit .getpid)

/-- System call `bind(fd, addr, len)` with a `struct sockaddr_nl` address. -/
def sys_bind (k : Kernel) (fd : Int) (nl_family : Nat) (nl_pid : Int) (nl_groups : Nat)
    (w : World) : Int × World :=
  match k.bind w.now with
  | .ok _ => (0, w.emit (.bind fd nl_family nl_pid nl_groups))
  | .fail e => (-1, w.failed (.bind fd nl_family nl_pid nl_groups) e)

/-- Bytes written by the conversion `%.*s` of the C library for the array
`s`: the bytes of the array up to, and not including, the first null byte, and
no more than `precision` of them; a negative precision counts as omitted. -/
def fmt_precision_s (precision : Int) (s : List Byte) : List Byte :=
  if precision < 0 then s.takeWhile (fun c => c ≠ 0)
  else (s.take precision.toNat).takeWhile (fun c => c ≠ 0)

/-! ## The functions of `src/ludev.c` -/

/-- Source lines 18-55. -/
def ludev_epoll_event_netlinkfd (k : Kernel) (ludev : ludev_s) (event : epoll_event)
    (w : World) : Int × World :=
  match sys_read k ludev.netlinkfd (k.stack w.now) 8192 w with
  | (bytes_read, buf, w) =>
    if -1 = bytes_read then
      (-1, w.emit (.syslog LOG_ERR "%s:%d:%s: read: %s"
        [.file, .line 30, .func "ludev_epoll_event_netlinkfd", .strerror w.errno]))
    else if 0 = bytes_read then
      (-1, w.emit (.syslog LOG_ERR "%s:%d:%s: read 0 bytes"
        [.file, .line 34, .func "ludev_epoll_event_netlinkfd"]))
    else
      let w := w.emit (.syslog LOG_INFO "%s:%d:%s: len=%d, msg=%.*s"
        [.file, .line 38, .func "ludev_epoll_event_netlinkfd", .int bytes_read,
         .str (fmt_precision_s bytes_read buf)])
      match sys_epoll_ctl k ludev.epollfd EPOLL_CTL_MOD event.data.fd
          ⟨EPOLLIN ||| EPOLLERR ||| EPOLLHUP ||| EPOLLONESHOT, event.data⟩ w with
      | (ret, w) =>
        if -1 = ret then
          (-1, w.emit (.syslog LOG_ERR "%s:%d:%s: epoll_ctl: %s"
            [.file, .line 50, .func "ludev_epoll_event_netlinkfd", .strerror w.errno]))
        else
          (0, w)

/-- Source lines 58-68. -/
def ludev_epoll_event_dispatch (k : Kernel) (ludev : ludev_s) (event : epoll_event)
    (w : World) : Int × World :=
  if event.data.fd = ludev.netlinkfd then
    ludev_epoll_event_netlinkfd k ludev event w
  else
    (-1, w.emit (.syslog LOG_ERR "%s:%d:%s: No match on epoll event."
      [.file, .line 66, .func "ludev_epoll_event_dispatch"]))

/-- The `for` loop of `ludev_epoll_handle_events` (source lines 78-84) with
`todo` iterations left, that is `epoll_events_len - i` of them.  A slot of the
array that no record was stored in reads as the default record. -/
def handle_events_for (k : Kernel) (ludev : ludev_s) (epoll_events : List epoll_event) :
    Nat → Nat → World → Int × World
  | 0, _, w => (0, w)
  | todo + 1, i, w =>
    match ludev_epoll_event_dispatch k ludev (epoll_events.getD i default) w with
    | (ret, w) =>
      if 0 ≠ ret then (ret, w)
      else handle_events_for k ludev epoll_events todo (i + 1) w

/-- Source lines 71-86. -/
def ludev_epoll_handle_events (k : Kernel) (ludev : ludev_s)
    (epoll_events : List epoll_event) (epoll_events_len : Int) (w : World) : Int × World :=
  handle_events_for k ludev epoll_events epoll_events_len.toNat 0 w

/-- One pass through the body of the `while (1)` of `ludev_loop` (source lines
99-127): `none` when control goes back to the head of the loop, `some r` when
the function returns `r`. -/
def ludev_loop_body (k : Kernel) (ludev : ludev_s) (w : World) : Option Int × World :=
  match sys_epoll_wait k ludev.epollfd 8 (-1) w with
  | (epoll_events_len, epoll_events, w) =>
    if -1 = epoll_events_len ∧ EINTR = w.errno then
      (none, w)
    else if -1 = epoll_events_len then
      (some (-1), w.emit (.syslog LOG_ERR "%s:%d:%s: epoll_wait: %s"
        [.file, .line 112, .func "ludev_loop", .strerror w.errno]))
    else if 0 = epoll_events_len then
      (some (-1), w.emit (.syslog LOG_ERR "%s:%d:%s: epoll_wait returned 0 events"
        [.file, .line 117, .func "ludev_loop"]))
    else
      match ludev_epoll_handle_events k ludev epoll_events epoll_events_len w with
      | (ret, w) =>
        if -1 = ret then
          (some (-1), w.emit (.syslog LOG_ERR
            "%s:%d:%s: ludev_epoll_handle_events returned -1"
            [.file, .line 125, .func "ludev_loop"]))
        else
          (none, w)

/-- Source lines 89-132, run for at most `fuel` passes of the loop: `some r`
when the function has returned `r`, `none` when it is still in the loop. -/
def ludev_loop (k : Kernel) (ludev : ludev_s) : Nat → World → Option Int × World
  | 0, w => (none, w)
  | fuel + 1, w =>
    match ludev_loop_body k ludev w with
    | (some r, w) => (some r, w)
    | (none, w) => ludev_loop k ludev fuel w

/-- Source lines 135-149; `SENTINEL` is the value of the macro
`LUDEV_SENTINEL` of `ludev.h`. -/
def ludev_init (SENTINEL : Int) (k : Kernel) (ludev : ludev_s) (w : World) :
    Int × ludev_s × World :=
  let ludev := { ludev with sentinel := SENTINEL }
  match sys_epoll_create1 k EPOLL_CLOEXEC w with
  | (fd, w) =>
    let ludev := { ludev with epollfd := fd }
    if -1 = ludev.epollfd then
      (-1, ludev, w.emit (.syslog LOG_ERR "%s:%d:%s: epoll_create1: %s"
        [.file, .line 144, .func "ludev_init", .strerror w.errno]))
    else
      (0, ludev, w)

/-- Source lines 152-213.  The pointer argument is `none` for `NULL`. -/
def ludev_netlink_open (SENTINEL : Int) (k : Kernel) (ludev : Option ludev_s) (w : World) :
    Int × Option ludev_s × World :=
  match ludev with
  | none =>
    (-1, none, w.emit (.syslog LOG_ERR "%s:%d:%s: ludev pointer is NULL"
      [.file, .line 160, .func "ludev_netlink_open"]))
  | some ludev =>
    if SENTINEL ≠ ludev.sentinel then
      (-1, some ludev, w.emit (.syslog LOG_ERR "%s:%d:%s: sentinel is wrong"
        [.file, .line 164, .func "ludev_netlink_open"]))
    else
      match sys_socket k AF_NETLINK (SOCK_RAW ||| SOCK_CLOEXEC ||| SOCK_NONBLOCK)
          NETLINK_KOBJECT_UEVENT w with
      | (fd, w) =>
        let ludev := { ludev with netlinkfd := fd }
        if -1 = ludev.netlinkfd then
          (-1, some ludev, w.emit (.syslog LOG_ERR "%s:%d:%s: socket: %s"
            [.file, .line 175, .func "ludev_netlink_open", .strerror w.errno]))
        else
          match sys_getpid k w with
          | (pid, w) =>
            match sys_bind k ludev.netlinkfd AF_NETLINK pid (2 ^ 32 - 1) w with
            | (ret, w) =>
              if -1 = ret then
                (-1, some ludev, w.emit (.syslog LOG_ERR "%s:%d:%s: bind: %s"
                  [.file, .line 191, .func "ludev_netlink_open", .strerror w.errno]))
              else
                match sys_epoll_ctl k ludev.epollfd EPOLL_CTL_ADD ludev.netlinkfd
                    ⟨EPOLLIN ||| EPOLLERR ||| EPOLLHUP ||| EPOLLONESHOT,
                     ⟨ludev.netlinkfd, 0⟩⟩ w with
                | (ret, w) =>
                  if -1 = ret then
                    (-1, some ludev, w.emit (.syslog LOG_ERR "%s:%d:%s: epoll_ctl: %s"
                      [.file, .line 208, .func "ludev_netlink_open", .strerror w.errno]))
                  else
                    (0, some ludev, w)

/-- Source lines 216-246, with at most `fuel` passes of the loop of
`ludev_loop`: `some r` when `main` has returned `r`, `none` when it is still
running. -/
def main (SENTINEL : Int) (k : Kernel) (fuel : Nat) : Option Int × World :=
  let ludev : ludev_s := ⟨0, 0, 0⟩
  let w : World := (World.mk 0 []).emit (.openlog "ludev" (LOG_CONS ||| LOG_PID) LOG_USER)
  match ludev_init SENTINEL k ludev w with
  | (ret, ludev, w) =>
    if -1 = ret then
      (some (-1), w.emit (.syslog LOG_ERR "%s:%d:%s: ludev_init returned -1"
        [.file, .line 228, .func "main"]))
    else
      match ludev_netlink_open SENTINEL k (some ludev) w with
      | (ret, p, w) =>
        let w := if -1 = ret then
            w.emit (.syslog LOG_ERR "%s:%d:%s: ludev_netlink_open returned -1"
              [.file, .line 234, .func "main"])
          else w
        match ludev_loop k (p.getD ludev) fuel w with
        | (some ret, w) =>
          if -1 = ret then
            (some (-1), w.emit (.syslog LOG_ERR "%s:%d:%s: ludev_loop returned -1"
              [.file, .line 239, .func "main"]))
          else
            (some 0, w)
        | (none, w) => (none, w)

/-! ## Vocabulary of the statements -/

/-- The call with which the handler logs `bytes` drained from the channel. -/
def data_log (bytes : List Byte) : Action :=
  .syslog LOG_INFO "%s:%d:%s: len=%d, msg=%.*s"
    [.file, .line 38, .func "ludev_epoll_event_netlinkfd", .int bytes.length,
     .str (bytes.takeWhile (fun c => c ≠ 0))]

/-- The re-arm call of the handler for the record `event`. -/
def rearm (ludev : ludev_s) (event : epoll_event) : Action :=
  .epoll_ctl ludev.epollfd EPOLL_CTL_MOD event.data.fd
    ⟨EPOLLIN ||| EPOLLERR ||| EPOLLHUP ||| EPOLLONESHOT, event.data⟩

/-- State in which record `i` of a batch is dispatched when the records
before it are dispatched one after the other, each once, in index order,
starting from `w`. -/
def world_before (k : Kernel) (ludev : ludev_s) (epoll_events : List epoll_event)
    (w : World) : Nat → World
  | 0 => w
  | i + 1 =>
    (ludev_epoll_event_dispatch k ludev (epoll_events.getD i default)
      (world_before k ludev epoll_events w i)).2

/-- Value returned by the dispatch of record `i` of a batch, in the state
`world_before` gives for it. -/
def result_at (k : Kernel) (ludev : ludev_s) (epoll_events : List epoll_event)
    (w : World) (i : Nat) : Int :=
  (ludev_epoll_event_dispatch k ludev (epoll_events.getD i default)
    (world_before k ludev epoll_events w i)).1

/-- The calls of `ludev_netlink_open` up to the registration of the channel
`fd` with the multiplexer `epfd`, `pid` being the result of `getpid`. -/
def open_calls (epfd : Int) (fd : Nat) (pid : Int) : List Action :=
  [.socket AF_NETLINK (SOCK_RAW ||| SOCK_CLOEXEC ||| SOCK_NONBLOCK) NETLINK_KOBJECT_UEVENT,
   .getpid,
   .bind fd AF_NETLINK pid (2 ^ 32 - 1),
   .epoll_ctl epfd EPOLL_CTL_ADD fd
     ⟨EPOLLIN ||| EPOLLERR ||| EPOLLHUP ||| EPOLLONESHOT, ⟨fd, 0⟩⟩]

/-- Bytes stored by the `read` of at most 8192 bytes that the kernel answers at
position `t` of the trace (none when it fails). -/
def Kernel.read_bytes (k : Kernel) (t : Nat) : List Byte :=
  match k.read t with
  | .ok bytes => bytes.take 8192
  | .fail _ => []

/-- The three calls of a successful handling of record `i` of a batch whose
handling starts at position `base` of the trace: the `read`, the data log and
the re-arm. -/
def handled (k : Kernel) (ludev : ludev_s) (epoll_events : List epoll_event)
    (base i : Nat) : List Action :=
  [.read ludev.netlinkfd 8192,
   data_log (k.read_bytes (base + 3 * i)),
   rearm ludev (epoll_events.getD i default)]

/-- State in which `main` calls `ludev_init`: `openlog` has been called. -/
def world_init : World :=
  (World.mk 0 []).emit (.openlog "ludev" (LOG_CONS ||| LOG_PID) LOG_USER)

/-- The Loop Context and the state with which `main` calls `ludev_loop`, on a
run where `ludev_init` did not return -1 (source lines 226-237). -/
def loop_entry (SENTINEL : Int) (k : Kernel) : ludev_s × World :=
  match ludev_init SENTINEL k ⟨0, 0, 0⟩ world_init with
  | (_, ludev, w) =>
    match ludev_netlink_open SENTINEL k (some ludev) w with
    | (ret, p, w) =>
      (p.getD ludev,
        if -1 = ret then
          w.emit (.syslog LOG_ERR "%s:%d:%s: ludev_netlink_open returned -1"
            [.file, .line 234, .func "main"])
        else w)

/-- The `read` that the kernel answers at position `t` of the trace returns 0
(no byte) or -1 (an error). -/
def Kernel.read_fails (k : Kernel) (t : Nat) : Bool :=
  match k.read t with
  | .ok [] => true
  | .ok _ => false
  | .fail _ => true

/-- Every failing `read` among the calls `added`, issued from position `base`
of the trace on, is fatal: the status is "returned -1" and only error logs
follow the `read`. -/
def FatalReads (k : Kernel) (base : Nat) (added : List Action) (status : Option Int) : Prop :=
  ∀ j a, added[j]? = some a → a.isRead = true → k.read_fails (base + j) = true →
    status = some (-1) ∧ ∀ b ∈ added.drop (j + 1), b.isErrLog = true

/-- The run from `w` to `w2` only appends calls, and every failing `read`
among them is fatal. -/
def Seg (k : Kernel) (w w2 : World) (status : Option Int) : Prop :=
  ∃ added, w2.trace = w.trace ++ added ∧ FatalReads k w.now added status

/-! ## Concrete kernels used to evaluate the functions -/

/-- A kernel on which every call succeeds; each `read` yields the three bytes
`a`, null, `b`, and each wait reports the channel ready once. -/
def kernelNul : Kernel where
  epoll_create1 := fun _ => .ok 3
  socket := fun _ => .ok 4
  getpid := fun _ => 100
  bind := fun _ => .ok ()
  epoll_ctl := fun _ => .ok ()
  epoll_wait := fun _ => .ok [⟨EPOLLIN, ⟨4, 0⟩⟩]
  read := fun _ => .ok [97, 0, 98]
  stack := fun _ => [1, 2, 3, 4, 5]

/-- A kernel like `kernelNul` on which every `read` fails with `EACCES`. -/
def kernelReadDenied : Kernel :=
  { kernelNul with read := fun _ => .fail 13 }

/-- A kernel like `kernelNul` on which every wait is interrupted (`EINTR`). -/
def kernelInterrupted : Kernel :=
  { kernelNul with epoll_wait := fun _ => .fail EINTR }

/-- A kernel like `kernelInterrupted` on which `socket` fails with `EMFILE`. -/
def kernelNoSocket : Kernel :=
  { kernelInterrupted with socket := fun _ => .fail 24 }

/-- A kernel like `kernelNul` on which `epoll_create1` fails with `EMFILE`. -/
def kernelNoEpoll : Kernel :=
  { kernelNul with epoll_create1 := fun _ => .fail 24 }

/-- A kernel like `kernelNul` on which every wait succeeds with no record. -/
def kernelEmptyWait : Kernel :=
  { kernelNul with epoll_wait := fun _ => .ok [] }

/-- A kernel like `kernelNul` whose reads yield the three bytes `a`, `b`, `c`. -/
def kernelText : Kernel :=
  { kernelNul with read := fun _ => .ok [97, 98, 99] }

/-! ## Basic facts about worlds -/

@[simp] theorem World.emit_trace (w : World) (a : Action) :
    (w.emit a).trace = w.trace ++ [a] := rfl

@[simp] theorem World.emit_errno (w : World) (a : Action) : (w.emit a).errno = w.errno := rfl

@[simp] theorem World.failed_trace (w : World) (a : Action) (e : Int) :
    (w.failed a e).trace = w.trace ++ [a] := rfl

@[simp] theorem World.failed_errno (w : World) (a : Action) (e : Int) :
    (w.failed a e).errno = e := rfl

@[simp] theorem World.emit_now (w : World) (a : Action) : (w.emit a).now = w.now + 1 := by
  simp [World.now]

@[simp] theorem World.failed_now (w : World) (a : Action) (e : Int) :
    (w.failed a e).now = w.now + 1 := by
  simp [World.now]

theorem takeWhile_eq_self_of_all {α : Type} (p : α → Bool) :
    ∀ l : List α, (∀ x ∈ l, p x = true) → l.takeWhile p = l
  | [], _ => rfl
  | x :: xs, h => by
    have hx : p x = true := h x (by simp)
    have hxs : ∀ y ∈ xs, p y = true := fun y hy => h y (by simp [hy])
    simp [List.takeWhile_cons, hx, takeWhile_eq_self_of_all p xs hxs]

/-- What `%.*s` writes for a buffer that starts with `bytes`, at precision
`bytes.length`: the bytes before the first null byte of `bytes`. -/
theorem fmt_precision_s_prefix (bytes rest : List Byte) :
    fmt_precision_s (bytes.length : Int) (bytes ++ rest) = bytes.takeWhile (fun c => c ≠ 0) := by
  unfold fmt_precision_s
  have h : ¬ ((bytes.length : Int) < 0) := by omega
  simp [h]

/-! ## The system calls, case by case -/

theorem sys_read_ok (k : Kernel) (fd : Int) (buf : List Byte) (count : Nat) (w : World)
    (bytes : List Byte) (h : k.read w.now = .ok bytes) :
    sys_read k fd buf count w =
      (((bytes.take count).length : Int),
        bytes.take count ++ buf.drop (bytes.take count).length, w.emit (.read fd count)) := by
  simp [sys_read, h]

theorem sys_read_fail (k : Kernel) (fd : Int) (buf : List Byte) (count : Nat) (w : World)
    (e : Int) (h : k.read w.now = .fail e) :
    sys_read k fd buf count w = (-1, buf, w.failed (.read fd count) e) := by
  simp [sys_read, h]

theorem sys_epoll_ctl_ok (k : Kernel) (epfd : Int) (op : Nat) (fd : Int) (ev : epoll_event)
    (w : World) (u : Unit) (h : k.epoll_ctl w.now = .ok u) :
    sys_epoll_ctl k epfd op fd ev w = (0, w.emit (.epoll_ctl epfd op fd ev)) := by
  simp [sys_epoll_ctl, h]

theorem sys_epoll_ctl_fail (k : Kernel) (epfd : Int) (op : Nat) (fd : Int) (ev : epoll_event)
    (w : World) (e : Int) (h : k.epoll_ctl w.now = .fail e) :
    sys_epoll_ctl k epfd op fd ev w = (-1, w.failed (.epoll_ctl epfd op fd ev) e) := by
  simp [sys_epoll_ctl, h]

/-! ## The handler, case by case -/

theorem netlinkfd_read_fail (k : Kernel) (ludev : ludev_s) (event : epoll_event) (w : World)
    (e : Int) (h : k.read w.now = .fail e) :
    ludev_epoll_event_netlinkfd k ludev event w =
      (-1, (w.failed (.read ludev.netlinkfd 8192) e).emit
        (.syslog LOG_ERR "%s:%d:%s: read: %s"
          [.file, .line 30, .func "ludev_epoll_event_netlinkfd", .strerror e])) := by
  unfold ludev_epoll_event_netlinkfd
  rw [sys_read_fail k _ _ _ w e h]
  simp

theorem netlinkfd_read_zero (k : Kernel) (ludev : ludev_s) (event : epoll_event) (w : World)
    (h : k.read w.now = .ok []) :
    ludev_epoll_event_netlinkfd k ludev event w =
      (-1, (w.emit (.read ludev.netlinkfd 8192)).emit
        (.syslog LOG_ERR "%s:%d:%s: read 0 bytes"
          [.file, .line 34, .func "ludev_epoll_event_netlinkfd"])) := by
  unfold ludev_epoll_event_netlinkfd
  rw [sys_read_ok k _ _ _ w [] h]
  simp

theorem netlinkfd_logged (k : Kernel) (ludev : ludev_s) (event : epoll_event) (w : World)
    (bytes : List Byte) (h : k.read w.now = .ok bytes) (hne : bytes ≠ []) :
    ludev_epoll_event_netlinkfd k ludev event w =
      match sys_epoll_ctl k ludev.epollfd EPOLL_CTL_MOD event.data.fd
          ⟨EPOLLIN ||| EPOLLERR ||| EPOLLHUP ||| EPOLLONESHOT, event.data⟩
          ((w.emit (.read ludev.netlinkfd 8192)).emit (data_log (bytes.take 8192))) with
      | (ret, w) =>
        if -1 = ret then
          (-1, w.emit (.syslog LOG_ERR "%s:%d:%s: epoll_ctl: %s"
            [.file, .line 50, .func "ludev_epoll_event_netlinkfd", .strerror w.errno]))
        else
          (0, w) := by
  unfold ludev_epoll_event_netlinkfd
  rw [sys_read_ok k _ _ _ w bytes h]
  have hlen : 0 < (bytes.take 8192).length := by
    cases bytes with
    | nil => exact absurd rfl hne
    | cons b bs => simp
  have hne1 : ¬ ((-1 : Int) = ((bytes.take 8192).length : Int)) := by omega
  have hne0 : ¬ ((0 : Int) = ((bytes.take 8192).length : Int)) := by omega
  simp only [hne1, hne0, if_false, fmt_precision_s_prefix, data_log]

theorem netlinkfd_rearmed (k : Kernel) (ludev : ludev_s) (event : epoll_event) (w : World)
    (bytes : List Byte) (h : k.read w.now = .ok bytes) (hne : bytes ≠ []) (u : Unit)
    (hctl : k.epoll_ctl (w.now + 2) = .ok u) :
    ludev_epoll_event_netlinkfd k ludev event w =
      (0, ((w.emit (.read ludev.netlinkfd 8192)).emit (data_log (bytes.take 8192))).emit
        (rearm ludev event)) := by
  rw [netlinkfd_logged k ludev event w bytes h hne,
    sys_epoll_ctl_ok k _ _ _ _ _ u (by simpa using hctl)]
  simp [rearm]

theorem netlinkfd_rearm_fail (k : Kernel) (ludev : ludev_s) (event : epoll_event) (w : World)
    (bytes : List Byte) (h : k.read w.now = .ok bytes) (hne : bytes ≠ []) (e : Int)
    (hctl : k.epoll_ctl (w.now + 2) = .fail e) :
    ludev_epoll_event_netlinkfd k ludev event w =
      (-1, (((w.emit (.read ludev.netlinkfd 8192)).emit (data_log (bytes.take 8192))).failed
        (rearm ludev event) e).emit (.syslog LOG_ERR "%s:%d:%s: epoll_ctl: %s"
          [.file, .line 50, .func "ludev_epoll_event_netlinkfd", .strerror e])) := by
  rw [netlinkfd_logged k ludev event w bytes h hne,
    sys_epoll_ctl_fail k _ _ _ _ _ e (by simpa using hctl)]
  simp [rearm]

/-! ## C1 -/

/-- C1 as stated fails: the kernel delivers the three bytes `a`, null, `b`
(N = 3), and the payload the handler hands to the log is the single byte `a`,
not the three bytes read. -/
theorem netlinkfd_payload_stops_at_null_byte :
    kernelNul.read 0 = .ok [97, 0, 98] ∧
    payloads (ludev_epoll_event_netlinkfd kernelNul ⟨0, 3, 4⟩ ⟨EPOLLIN, ⟨4, 0⟩⟩ ⟨0, []⟩).2.trace
      = [[97]] ∧
    payloads (ludev_epoll_event_netlinkfd kernelNul ⟨0, 3, 4⟩ ⟨EPOLLIN, ⟨4, 0⟩⟩ ⟨0, []⟩).2.trace
      ≠ [[97, 0, 98]] := by
  decide

/-- C1 amended: for every buffer content and every read result N with
0 < N <= 8192, the handler hands exactly one payload to the log, and it is the
N bytes read cut before their first null byte; when none of the N bytes is
null it is exactly the N bytes read, with no truncation and no padding. -/
theorem netlinkfd_payload_is_bytes_before_null (k : Kernel) (ludev : ludev_s)
    (event : epoll_event) (w : World) (bytes : List Byte)
    (hread : k.read w.now = .ok bytes) (hpos : 0 < bytes.length)
    (hmax : bytes.length ≤ 8192) :
    payloads ((ludev_epoll_event_netlinkfd k ludev event w).2.since w)
        = [bytes.takeWhile (fun c => c ≠ 0)] ∧
      ((∀ b ∈ bytes, b ≠ 0) →
        payloads ((ludev_epoll_event_netlinkfd k ludev event w).2.since w) = [bytes]) := by
  have htake : bytes.take 8192 = bytes := List.take_of_length_le hmax
  have hne : bytes ≠ [] := by
    intro h
    simp [h] at hpos
  have key : payloads ((ludev_epoll_event_netlinkfd k ludev event w).2.since w)
      = [bytes.takeWhile (fun c => c ≠ 0)] := by
    cases hctl : k.epoll_ctl (w.now + 2) with
    | ok u =>
      rw [netlinkfd_rearmed k ludev event w bytes hread hne u hctl, htake]
      simp [World.since, payloads, Action.payload, data_log, rearm]
    | fail e =>
      rw [netlinkfd_rearm_fail k ludev event w bytes hread hne e hctl, htake]
      simp [World.since, payloads, Action.payload, data_log, rearm]
  refine ⟨key, fun hall => ?_⟩
  rw [key, takeWhile_eq_self_of_all]
  intro x hx
  simpa using hall x hx

/-- Witness for C1 amended: three bytes without
a null byte are logged verbatim. -/
theorem netlinkfd_payload_is_bytes_before_null_witness :
    payloads ((ludev_epoll_event_netlinkfd kernelText ⟨0, 3, 4⟩ ⟨EPOLLIN, ⟨4, 0⟩⟩
      ⟨0, []⟩).2.since ⟨0, []⟩) = [[97, 98, 99]] :=
  (netlinkfd_payload_is_bytes_before_null kernelText ⟨0, 3, 4⟩ ⟨EPOLLIN, ⟨4, 0⟩⟩ ⟨0, []⟩
    [97, 98, 99] rfl (by decide) (by decide)).2 (by simp)

/-! ## C4 -/

theorem dispatch_match (k : Kernel) (ludev : ludev_s) (event : epoll_event) (w : World)
    (h : event.data.fd = ludev.netlinkfd) :
    ludev_epoll_event_dispatch k ludev event w = ludev_epoll_event_netlinkfd k ludev event w := by
  simp [ludev_epoll_event_dispatch, h]

theorem dispatch_no_match (k : Kernel) (ludev : ludev_s) (event : epoll_event) (w : World)
    (h : event.data.fd ≠ ludev.netlinkfd) :
    ludev_epoll_event_dispatch k ludev event w =
      (-1, w.emit (.syslog LOG_ERR "%s:%d:%s: No match on epoll event."
        [.file, .line 66, .func "ludev_epoll_event_dispatch"])) := by
  simp [ludev_epoll_event_dispatch, h]

/-- C4: a record whose `data.fd` differs from `ludev->netlinkfd` makes
`ludev_epoll_event_dispatch` return -1 and the only call issued is the error
log (no `read`, no `epoll_ctl`, so no handler ran); a record whose `data.fd`
equals `netlinkfd` is routed to `ludev_epoll_event_netlinkfd` and the result
of the handler is returned unchanged. -/
theorem dispatch_routes_by_descriptor (k : Kernel) (ludev : ludev_s) (event : epoll_event)
    (w : World) :
    (event.data.fd ≠ ludev.netlinkfd →
      (ludev_epoll_event_dispatch k ludev event w).1 = -1 ∧
      (ludev_epoll_event_dispatch k ludev event w).2.since w =
        [.syslog LOG_ERR "%s:%d:%s: No match on epoll event."
          [.file, .line 66, .func "ludev_epoll_event_dispatch"]] ∧
      (∀ a ∈ (ludev_epoll_event_dispatch k ludev event w).2.since w,
        a.isRead = false ∧ a.isCtl = false)) ∧
    (event.data.fd = ludev.netlinkfd →
      ludev_epoll_event_dispatch k ludev event w =
        ludev_epoll_event_netlinkfd k ludev event w) := by
  refine ⟨fun h => ?_, dispatch_match k ludev event w⟩
  rw [dispatch_no_match k ludev event w h]
  simp [World.since, Action.isRead, Action.isCtl]

/-- Witness for C4: a record for descriptor 9 is
refused by a context whose channel is descriptor 4, and a record for
descriptor 4 runs the handler. -/
theorem dispatch_routes_by_descriptor_witness :
    ((ludev_epoll_event_dispatch kernelText ⟨0, 3, 4⟩ ⟨EPOLLIN, ⟨9, 0⟩⟩ ⟨0, []⟩).1 = -1 ∧
      (ludev_epoll_event_dispatch kernelText ⟨0, 3, 4⟩ ⟨EPOLLIN, ⟨9, 0⟩⟩ ⟨0, []⟩).2.since ⟨0, []⟩ =
        [.syslog LOG_ERR "%s:%d:%s: No match on epoll event."
          [.file, .line 66, .func "ludev_epoll_event_dispatch"]]) ∧
    ludev_epoll_event_dispatch kernelText ⟨0, 3, 4⟩ ⟨EPOLLIN, ⟨4, 0⟩⟩ ⟨0, []⟩ =
      ludev_epoll_event_netlinkfd kernelText ⟨0, 3, 4⟩ ⟨EPOLLIN, ⟨4, 0⟩⟩ ⟨0, []⟩ :=
  ⟨⟨((dispatch_routes_by_descriptor kernelText ⟨0, 3, 4⟩ ⟨EPOLLIN, ⟨9, 0⟩⟩ ⟨0, []⟩).1
      (by decide)).1,
    ((dispatch_routes_by_descriptor kernelText ⟨0, 3, 4⟩ ⟨EPOLLIN, ⟨9, 0⟩⟩ ⟨0, []⟩).1
      (by decide)).2.1⟩,
   (dispatch_routes_by_descriptor kernelText ⟨0, 3, 4⟩ ⟨EPOLLIN, ⟨4, 0⟩⟩ ⟨0, []⟩).2 rfl⟩

/-! ## C5 -/

theorem dispatch_at (k : Kernel) (ludev : ludev_s) (evs : List epoll_event) (w : World)
    (i : Nat) :
    ludev_epoll_event_dispatch k ludev (evs.getD i default) (world_before k ludev evs w i) =
      (result_at k ludev evs w i, world_before k ludev evs w (i + 1)) := rfl

/-- The loop started at index `i` stops at the first record `j` whose dispatch
fails. -/
theorem handle_events_for_first_failure (k : Kernel) (ludev : ludev_s)
    (evs : List epoll_event) (w : World) :
    ∀ (todo i j : Nat), i ≤ j → j < i + todo →
      (∀ m, i ≤ m → m < j → result_at k ludev evs w m = 0) →
      result_at k ludev evs w j ≠ 0 →
      handle_events_for k ludev evs todo i (world_before k ludev evs w i) =
        (result_at k ludev evs w j, world_before k ludev evs w (j + 1))
  | 0, i, j, hij, hj, _, _ => by omega
  | todo + 1, i, j, hij, hj, hzero, hfail => by
    unfold handle_events_for
    rw [dispatch_at]
    by_cases h : j = i
    · subst h
      simp [Ne.symm hfail]
    · have hi : result_at k ludev evs w i = 0 := hzero i (le_refl i) (by omega)
      simp only [hi, ne_eq, not_true_eq_false, if_false]
      exact handle_events_for_first_failure k ludev evs w todo (i + 1) j (by omega) (by omega)
        (fun m hm hmj => hzero m (by omega) hmj) hfail

/-- The loop started at index `i` runs to the end when no dispatch fails. -/
theorem handle_events_for_all_ok (k : Kernel) (ludev : ludev_s)
    (evs : List epoll_event) (w : World) :
    ∀ (todo i : Nat), (∀ m, i ≤ m → m < i + todo → result_at k ludev evs w m = 0) →
      handle_events_for k ludev evs todo i (world_before k ludev evs w i) =
        (0, world_before k ludev evs w (i + todo))
  | 0, i, _ => by simp [handle_events_for]
  | todo + 1, i, hzero => by
    unfold handle_events_for
    rw [dispatch_at]
    have hi : result_at k ludev evs w i = 0 := hzero i (le_refl i) (by omega)
    simp only [hi, ne_eq, not_true_eq_false, if_false]
    rw [handle_events_for_all_ok k ludev evs w todo (i + 1)
      (fun m hm hmj => hzero m (by omega) (by omega))]
    congr 2
    omega

theorem handle_events_zero_iff (k : Kernel) (ludev : ludev_s) (evs : List epoll_event)
    (w : World) (n : Nat) :
    (ludev_epoll_handle_events k ludev evs (n : Int) w).1 = 0 ↔
      ∀ j, j < n → result_at k ludev evs w j = 0 := by
  have hn : ((n : Int)).toNat = n := by simp
  unfold ludev_epoll_handle_events
  rw [hn]
  constructor
  · intro h
    by_contra hcon
    push_neg at hcon
    have hex : ∃ j, j < n ∧ result_at k ludev evs w j ≠ 0 := hcon
    classical
    have hj := Nat.find_spec hex
    have hmin : ∀ m, m < Nat.find hex → result_at k ludev evs w m = 0 := by
      intro m hm
      by_contra hm0
      exact Nat.find_min hex hm ⟨by omega, hm0⟩
    have := handle_events_for_first_failure k ludev evs w n 0 (Nat.find hex) (Nat.zero_le _)
      (by omega) (fun m _ hm => hmin m hm) hj.2
    rw [show world_before k ludev evs w 0 = w from rfl] at this
    rw [this] at h
    exact hj.2 h
  · intro h
    have := handle_events_for_all_ok k ludev evs w n 0 (fun m _ hm => h m (by omega))
    rw [show world_before k ludev evs w 0 = w from rfl] at this
    rw [this]

/-- C5: for a batch of n records (n <= 8), `ludev_epoll_handle_events`
dispatches the records in index order; when record i is the first whose
dispatch returns non-zero, it returns that value in the state left by that
dispatch, so that none of the records i+1 .. n-1 is dispatched; it returns 0
if and only if all n dispatches returned 0, and then every record has been
dispatched once, in order. -/
theorem handle_events_fail_fast (k : Kernel) (ludev : ludev_s)
    (epoll_events : List epoll_event) (w : World) (_hcap : epoll_events.length ≤ 8) :
    (∀ i, i < epoll_events.length →
      (∀ j, j < i → result_at k ludev epoll_events w j = 0) →
      result_at k ludev epoll_events w i ≠ 0 →
      ludev_epoll_handle_events k ludev epoll_events (epoll_events.length : Int) w =
        (result_at k ludev epoll_events w i, world_before k ludev epoll_events w (i + 1))) ∧
    ((ludev_epoll_handle_events k ludev epoll_events (epoll_events.length : Int) w).1 = 0 ↔
      ∀ j, j < epoll_events.length → result_at k ludev epoll_events w j = 0) ∧
    ((∀ j, j < epoll_events.length → result_at k ludev epoll_events w j = 0) →
      ludev_epoll_handle_events k ludev epoll_events (epoll_events.length : Int) w =
        (0, world_before k ludev epoll_events w epoll_events.length)) := by
  have hn : ((epoll_events.length : Int)).toNat = epoll_events.length := by simp
  refine ⟨fun i hi hzero hfail => ?_, handle_events_zero_iff k ludev epoll_events w _,
    fun hzero => ?_⟩
  · unfold ludev_epoll_handle_events
    rw [hn]
    exact handle_events_for_first_failure k ludev epoll_events w _ 0 i (Nat.zero_le _)
      (by omega) (fun m _ hm => hzero m hm) hfail
  · unfold ludev_epoll_handle_events
    rw [hn]
    have := handle_events_for_all_ok k ludev epoll_events w epoll_events.length 0
      (fun m _ hm => hzero m (by omega))
    simpa using this

/-- Witness for C5: in a batch of three records whose
second record is for an unknown descriptor, the first record is handled, the
second fails, and the third is never dispatched (a single `read` is issued). -/
theorem handle_events_fail_fast_witness :
    ludev_epoll_handle_events kernelText ⟨0, 3, 4⟩
        [⟨EPOLLIN, ⟨4, 0⟩⟩, ⟨EPOLLIN, ⟨9, 0⟩⟩, ⟨EPOLLIN, ⟨4, 0⟩⟩] 3 ⟨0, []⟩ =
      (result_at kernelText ⟨0, 3, 4⟩
          [⟨EPOLLIN, ⟨4, 0⟩⟩, ⟨EPOLLIN, ⟨9, 0⟩⟩, ⟨EPOLLIN, ⟨4, 0⟩⟩] ⟨0, []⟩ 1,
        world_before kernelText ⟨0, 3, 4⟩
          [⟨EPOLLIN, ⟨4, 0⟩⟩, ⟨EPOLLIN, ⟨9, 0⟩⟩, ⟨EPOLLIN, ⟨4, 0⟩⟩] ⟨0, []⟩ 2) ∧
    (world_before kernelText ⟨0, 3, 4⟩
        [⟨EPOLLIN, ⟨4, 0⟩⟩, ⟨EPOLLIN, ⟨9, 0⟩⟩, ⟨EPOLLIN, ⟨4, 0⟩⟩] ⟨0, []⟩ 2).trace =
      [.read 4 8192, data_log [97, 98, 99], rearm ⟨0, 3, 4⟩ ⟨EPOLLIN, ⟨4, 0⟩⟩,
       .syslog LOG_ERR "%s:%d:%s: No match on epoll event."
         [.file, .line 66, .func "ludev_epoll_event_dispatch"]] :=
  ⟨(handle_events_fail_fast kernelText ⟨0, 3, 4⟩
      [⟨EPOLLIN, ⟨4, 0⟩⟩, ⟨EPOLLIN, ⟨9, 0⟩⟩, ⟨EPOLLIN, ⟨4, 0⟩⟩] ⟨0, []⟩ (by decide)).1 1
      (by decide) (by decide) (by decide),
    by decide⟩

/-! ## Return values -/

theorem netlinkfd_ret (k : Kernel) (ludev : ludev_s) (event : epoll_event) (w : World) :
    (ludev_epoll_event_netlinkfd k ludev event w).1 = 0 ∨
      (ludev_epoll_event_netlinkfd k ludev event w).1 = -1 := by
  cases hread : k.read w.now with
  | fail e => rw [netlinkfd_read_fail k ludev event w e hread]; simp
  | ok bytes =>
    by_cases hne : bytes = []
    · subst hne
      rw [netlinkfd_read_zero k ludev event w hread]; simp
    · cases hctl : k.epoll_ctl (w.now + 2) with
      | ok u => rw [netlinkfd_rearmed k ludev event w bytes hread hne u hctl]; simp
      | fail e => rw [netlinkfd_rearm_fail k ludev event w bytes hread hne e hctl]; simp

theorem dispatch_ret (k : Kernel) (ludev : ludev_s) (event : epoll_event) (w : World) :
    (ludev_epoll_event_dispatch k ludev event w).1 = 0 ∨
      (ludev_epoll_event_dispatch k ludev event w).1 = -1 := by
  by_cases h : event.data.fd = ludev.netlinkfd
  · rw [dispatch_match k ludev event w h]
    exact netlinkfd_ret k ludev event w
  · rw [dispatch_no_match k ludev event w h]
    simp

theorem handle_events_for_succ (k : Kernel) (ludev : ludev_s) (evs : List epoll_event)
    (todo i : Nat) (w : World) :
    handle_events_for k ludev evs (todo + 1) i w =
      if 0 ≠ (ludev_epoll_event_dispatch k ludev (evs.getD i default) w).1 then
        ludev_epoll_event_dispatch k ludev (evs.getD i default) w
      else
        handle_events_for k ludev evs todo (i + 1)
          (ludev_epoll_event_dispatch k ludev (evs.getD i default) w).2 := by
  rw [handle_events_for]

theorem handle_events_for_ret (k : Kernel) (ludev : ludev_s) (evs : List epoll_event) :
    ∀ (todo i : Nat) (w : World),
      (handle_events_for k ludev evs todo i w).1 = 0 ∨
        (handle_events_for k ludev evs todo i w).1 = -1
  | 0, _, _ => by simp [handle_events_for]
  | todo + 1, i, w => by
    rw [handle_events_for_succ]
    rcases dispatch_ret k ludev (evs.getD i default) w with h | h
    · rw [if_neg (by rw [h]; simp)]
      exact handle_events_for_ret k ludev evs todo (i + 1) _
    · rw [if_pos (by rw [h]; decide)]
      exact Or.inr h

theorem handle_events_ret (k : Kernel) (ludev : ludev_s) (evs : List epoll_event) (n : Int)
    (w : World) :
    (ludev_epoll_handle_events k ludev evs n w).1 = 0 ∨
      (ludev_epoll_handle_events k ludev evs n w).1 = -1 :=
  handle_events_for_ret k ludev evs _ 0 w

/-! ## One pass of the loop, case by case -/

theorem loop_body_eintr (k : Kernel) (ludev : ludev_s) (w : World)
    (h : k.epoll_wait w.now = .fail EINTR) :
    ludev_loop_body k ludev w =
      (none, w.failed (.epoll_wait ludev.epollfd 8 (-1)) EINTR) := by
  simp [ludev_loop_body, sys_epoll_wait, h]

theorem loop_body_wait_fail (k : Kernel) (ludev : ludev_s) (w : World) (e : Int)
    (h : k.epoll_wait w.now = .fail e) (he : e ≠ EINTR) :
    ludev_loop_body k ludev w =
      (some (-1), (w.failed (.epoll_wait ludev.epollfd 8 (-1)) e).emit
        (.syslog LOG_ERR "%s:%d:%s: epoll_wait: %s"
          [.file, .line 112, .func "ludev_loop", .strerror e])) := by
  simp [ludev_loop_body, sys_epoll_wait, h, Ne.symm he]

theorem loop_body_wait_empty (k : Kernel) (ludev : ludev_s) (w : World)
    (h : k.epoll_wait w.now = .ok []) :
    ludev_loop_body k ludev w =
      (some (-1), (w.emit (.epoll_wait ludev.epollfd 8 (-1))).emit
        (.syslog LOG_ERR "%s:%d:%s: epoll_wait returned 0 events"
          [.file, .line 117, .func "ludev_loop"])) := by
  simp [ludev_loop_body, sys_epoll_wait, h]

theorem loop_body_batch (k : Kernel) (ludev : ludev_s) (w : World) (ready : List epoll_event)
    (h : k.epoll_wait w.now = .ok ready) (hne : ready ≠ []) :
    ludev_loop_body k ludev w =
      if -1 = (ludev_epoll_handle_events k ludev (ready.take 8) ((ready.take 8).length : Int)
          (w.emit (.epoll_wait ludev.epollfd 8 (-1)))).1 then
        (some (-1), (ludev_epoll_handle_events k ludev (ready.take 8)
          ((ready.take 8).length : Int) (w.emit (.epoll_wait ludev.epollfd 8 (-1)))).2.emit
            (.syslog LOG_ERR "%s:%d:%s: ludev_epoll_handle_events returned -1"
              [.file, .line 125, .func "ludev_loop"]))
      else
        (none, (ludev_epoll_handle_events k ludev (ready.take 8)
          ((ready.take 8).length : Int) (w.emit (.epoll_wait ludev.epollfd 8 (-1)))).2) := by
  have hlen : 0 < (ready.take 8).length := by
    cases ready with
    | nil => exact absurd rfl hne
    | cons b bs => simp
  have hne1 : ¬ ((-1 : Int) = ((ready.take 8).length : Int)) := by omega
  have hne0 : ¬ ((0 : Int) = ((ready.take 8).length : Int)) := by omega
  simp only [ludev_loop_body, sys_epoll_wait, h, hne1, hne0, false_and, if_false]

theorem loop_body_batch_ok (k : Kernel) (ludev : ludev_s) (w : World)
    (ready : List epoll_event) (h : k.epoll_wait w.now = .ok ready) (hne : ready ≠ [])
    (hz : (ludev_epoll_handle_events k ludev (ready.take 8) ((ready.take 8).length : Int)
      (w.emit (.epoll_wait ludev.epollfd 8 (-1)))).1 = 0) :
    ludev_loop_body k ludev w =
      (none, (ludev_epoll_handle_events k ludev (ready.take 8) ((ready.take 8).length : Int)
        (w.emit (.epoll_wait ludev.epollfd 8 (-1)))).2) := by
  rw [loop_body_batch k ludev w ready h hne, if_neg (by rw [hz]; decide)]

theorem loop_body_batch_fail (k : Kernel) (ludev : ludev_s) (w : World)
    (ready : List epoll_event) (h : k.epoll_wait w.now = .ok ready) (hne : ready ≠ [])
    (hz : (ludev_epoll_handle_events k ludev (ready.take 8) ((ready.take 8).length : Int)
      (w.emit (.epoll_wait ludev.epollfd 8 (-1)))).1 ≠ 0) :
    ludev_loop_body k ludev w =
      (some (-1), (ludev_epoll_handle_events k ludev (ready.take 8)
        ((ready.take 8).length : Int) (w.emit (.epoll_wait ludev.epollfd 8 (-1)))).2.emit
          (.syslog LOG_ERR "%s:%d:%s: ludev_epoll_handle_events returned -1"
            [.file, .line 125, .func "ludev_loop"])) := by
  rcases handle_events_ret k ludev (ready.take 8) ((ready.take 8).length : Int)
    (w.emit (.epoll_wait ludev.epollfd 8 (-1))) with h0 | h1
  · exact absurd h0 hz
  · rw [loop_body_batch k ludev w ready h hne, if_pos (by rw [h1])]

theorem loop_body_ret (k : Kernel) (ludev : ludev_s) (w : World) :
    (ludev_loop_body k ludev w).1 = some (-1) ∨ (ludev_loop_body k ludev w).1 = none := by
  cases h : k.epoll_wait w.now with
  | fail e =>
    by_cases he : e = EINTR
    · subst he
      rw [loop_body_eintr k ludev w h]; simp
    · rw [loop_body_wait_fail k ludev w e h he]; simp
  | ok ready =>
    by_cases hne : ready = []
    · subst hne
      rw [loop_body_wait_empty k ludev w h]; simp
    · by_cases hz : (ludev_epoll_handle_events k ludev (ready.take 8)
          ((ready.take 8).length : Int) (w.emit (.epoll_wait ludev.epollfd 8 (-1)))).1 = 0
      · rw [loop_body_batch_ok k ludev w ready h hne hz]; simp
      · rw [loop_body_batch_fail k ludev w ready h hne hz]; simp

theorem loop_step_return (k : Kernel) (ludev : ludev_s) (w : World) (r : Int)
    (h : (ludev_loop_body k ludev w).1 = some r) (fuel : Nat) :
    ludev_loop k ludev (fuel + 1) w = (some r, (ludev_loop_body k ludev w).2) := by
  have hb : ludev_loop_body k ludev w = (some r, (ludev_loop_body k ludev w).2) := by
    rw [← h]
  rw [ludev_loop, hb]

theorem loop_step_continue (k : Kernel) (ludev : ludev_s) (w : World)
    (h : (ludev_loop_body k ludev w).1 = none) (fuel : Nat) :
    ludev_loop k ludev (fuel + 1) w = ludev_loop k ludev fuel (ludev_loop_body k ludev w).2 := by
  have hb : ludev_loop_body k ludev w = (none, (ludev_loop_body k ludev w).2) := by
    rw [← h]
  rw [ludev_loop, hb]

/-! ## Segments of a run -/

theorem errLog_not_read (a : Action) (h : a.isErrLog = true) : a.isRead = false := by
  cases a <;> simp_all [Action.isErrLog, Action.isRead]

theorem Seg.refl (k : Kernel) (w : World) (s : Option Int) : Seg k w w s :=
  ⟨[], by simp, fun j a h => by simp at h⟩

theorem Seg.of_no_read (k : Kernel) (w w2 : World) (s : Option Int) (added : List Action)
    (ht : w2.trace = w.trace ++ added) (hno : ∀ a ∈ added, a.isRead = false) : Seg k w w2 s := by
  refine ⟨added, ht, fun j a hj hr _ => ?_⟩
  have hmem : a ∈ added := List.getElem?_mem hj
  rw [hno a hmem] at hr
  exact absurd hr (by simp)

theorem Seg.trans (k : Kernel) (w w1 w2 : World) (s1 s2 : Option Int)
    (h1 : Seg k w w1 s1) (hs : s1 ≠ some (-1)) (h2 : Seg k w1 w2 s2) : Seg k w w2 s2 := by
  obtain ⟨a1, ht1, hf1⟩ := h1
  obtain ⟨a2, ht2, hf2⟩ := h2
  refine ⟨a1 ++ a2, by rw [ht2, ht1, List.append_assoc], fun j a hj hr hfail => ?_⟩
  by_cases hlt : j < a1.length
  · rw [List.getElem?_append_left hlt] at hj
    exact absurd (hf1 j a hj hr hfail).1 hs
  · have hge : a1.length ≤ j := by omega
    rw [List.getElem?_append_right hge] at hj
    have hnow : w1.now + (j - a1.length) = w.now + j := by
      simp only [World.now, ht1, List.length_append]
      omega
    have := hf2 (j - a1.length) a hj hr (by rw [hnow]; exact hfail)
    refine ⟨this.1, fun b hb => this.2 b ?_⟩
    rw [List.drop_append_eq_append_drop, List.drop_eq_nil_of_le (by omega)] at hb
    have hidx : j + 1 - a1.length = j - a1.length + 1 := by omega
    rw [hidx] at hb
    simpa using hb

theorem Seg.log (k : Kernel) (w w1 : World) (s : Option Int) (a : Action)
    (h1 : Seg k w w1 s) (ha : a.isErrLog = true) : Seg k w (w1.emit a) s := by
  obtain ⟨a1, ht1, hf1⟩ := h1
  refine ⟨a1 ++ [a], by simp [ht1], fun j x hj hr hfail => ?_⟩
  by_cases hlt : j < a1.length
  · rw [List.getElem?_append_left hlt] at hj
    have := hf1 j x hj hr hfail
    refine ⟨this.1, fun b hb => ?_⟩
    rw [List.drop_append_of_le_length (by omega)] at hb
    rcases List.mem_append.mp hb with hb | hb
    · exact this.2 b hb
    · simp at hb
      rw [hb]
      exact ha
  · have hge : a1.length ≤ j := by omega
    rw [List.getElem?_append_right hge] at hj
    have hx : x = a := by
      rcases Nat.eq_zero_or_pos (j - a1.length) with h0 | hpos
      · rw [h0] at hj
        simpa using hj.symm
      · have : [a][j - a1.length]? = none := by
          apply List.getElem?_eq_none
          simp
          omega
        rw [this] at hj
        exact absurd hj (by simp)
    rw [hx, errLog_not_read a ha] at hr
    exact absurd hr (by simp)

theorem Seg.emit (k : Kernel) (w w1 : World) (s1 s : Option Int) (a : Action)
    (h1 : Seg k w w1 s1) (hs : s1 ≠ some (-1)) (ha : a.isRead = false) :
    Seg k w (w1.emit a) s :=
  Seg.trans k w w1 _ s1 s h1 hs (Seg.of_no_read k w1 (w1.emit a) s [a] (by simp) (by simp [ha]))

theorem Seg.failed (k : Kernel) (w w1 : World) (s1 s : Option Int) (a : Action) (e : Int)
    (h1 : Seg k w w1 s1) (hs : s1 ≠ some (-1)) (ha : a.isRead = false) :
    Seg k w (w1.failed a e) s :=
  Seg.trans k w w1 _ s1 s h1 hs
    (Seg.of_no_read k w1 (w1.failed a e) s [a] (by simp) (by simp [ha]))

/-- A `read` followed by calls that are not reads. -/
theorem Seg.read_first (k : Kernel) (w w2 : World) (s : Option Int) (x : Action)
    (rest : List Action) (ht : w2.trace = w.trace ++ x :: rest)
    (hrest : ∀ a ∈ rest, a.isRead = false)
    (hx : k.read_fails w.now = true → s = some (-1) ∧ ∀ b ∈ rest, b.isErrLog = true) :
    Seg k w w2 s := by
  refine ⟨x :: rest, ht, fun j a hj hr hfail => ?_⟩
  cases j with
  | zero => simpa using hx (by simpa using hfail)
  | succ j =>
    simp only [List.getElem?_cons_succ] at hj
    have hmem : a ∈ rest := List.getElem?_mem hj
    rw [hrest a hmem] at hr
    exact absurd hr (by simp)

theorem read_fails_of_ok (k : Kernel) (t : Nat) (bytes : List Byte) (h : k.read t = .ok bytes)
    (hne : bytes ≠ []) : k.read_fails t = false := by
  cases bytes with
  | nil => exact absurd rfl hne
  | cons b bs => simp [Kernel.read_fails, h]

theorem netlinkfd_seg (k : Kernel) (ludev : ludev_s) (event : epoll_event) (w : World) :
    Seg k w (ludev_epoll_event_netlinkfd k ludev event w).2
      (some (ludev_epoll_event_netlinkfd k ludev event w).1) := by
  cases hread : k.read w.now with
  | fail e =>
    rw [netlinkfd_read_fail k ludev event w e hread]
    exact Seg.read_first k w _ _ (.read ludev.netlinkfd 8192)
      [.syslog LOG_ERR "%s:%d:%s: read: %s"
        [.file, .line 30, .func "ludev_epoll_event_netlinkfd", .strerror e]]
      (by simp) (by simp [Action.isRead]) (fun _ => by simp [Action.isErrLog])
  | ok bytes =>
    by_cases hne : bytes = []
    · subst hne
      rw [netlinkfd_read_zero k ludev event w hread]
      exact Seg.read_first k w _ _ (.read ludev.netlinkfd 8192)
        [.syslog LOG_ERR "%s:%d:%s: read 0 bytes"
          [.file, .line 34, .func "ludev_epoll_event_netlinkfd"]]
        (by simp) (by simp [Action.isRead]) (fun _ => by simp [Action.isErrLog])
    · have hgood := read_fails_of_ok k w.now bytes hread hne
      cases hctl : k.epoll_ctl (w.now + 2) with
      | ok u =>
        rw [netlinkfd_rearmed k ludev event w bytes hread hne u hctl]
        exact Seg.read_first k w _ _ (.read ludev.netlinkfd 8192)
          [data_log (bytes.take 8192), rearm ludev event]
          (by simp) (by simp [Action.isRead, data_log, rearm])
          (fun h => by rw [hgood] at h; simp at h)
      | fail e =>
        rw [netlinkfd_rearm_fail k ludev event w bytes hread hne e hctl]
        exact Seg.read_first k w _ _ (.read ludev.netlinkfd 8192)
          [data_log (bytes.take 8192), rearm ludev event,
           .syslog LOG_ERR "%s:%d:%s: epoll_ctl: %s"
            [.file, .line 50, .func "ludev_epoll_event_netlinkfd", .strerror e]]
          (by simp) (by simp [Action.isRead, data_log, rearm])
          (fun h => by rw [hgood] at h; simp at h)

theorem dispatch_seg (k : Kernel) (ludev : ludev_s) (event : epoll_event) (w : World) :
    Seg k w (ludev_epoll_event_dispatch k ludev event w).2
      (some (ludev_epoll_event_dispatch k ludev event w).1) := by
  by_cases h : event.data.fd = ludev.netlinkfd
  · rw [dispatch_match k ludev event w h]
    exact netlinkfd_seg k ludev event w
  · rw [dispatch_no_match k ludev event w h]
    exact Seg.emit k w w none _ _ (Seg.refl k w none) (by simp) (by simp [Action.isRead])

theorem handle_events_for_seg (k : Kernel) (ludev : ludev_s) (evs : List epoll_event) :
    ∀ (todo i : Nat) (w : World),
      Seg k w (handle_events_for k ludev evs todo i w).2
        (some (handle_events_for k ludev evs todo i w).1)
  | 0, _, w => by
    simp only [handle_events_for]
    exact Seg.refl k w _
  | todo + 1, i, w => by
    rw [handle_events_for_succ]
    have hd := dispatch_seg k ludev (evs.getD i default) w
    rcases dispatch_ret k ludev (evs.getD i default) w with h | h
    · rw [if_neg (by rw [h]; simp)]
      exact Seg.trans k w _ _ _ _ hd (by rw [h]; decide)
        (handle_events_for_seg k ludev evs todo (i + 1) _)
    · rw [if_pos (by rw [h]; decide)]
      exact hd

theorem handle_events_seg (k : Kernel) (ludev : ludev_s) (evs : List epoll_event) (n : Int)
    (w : World) :
    Seg k w (ludev_epoll_handle_events k ludev evs n w).2
      (some (ludev_epoll_handle_events k ludev evs n w).1) :=
  handle_events_for_seg k ludev evs _ 0 w

theorem loop_body_seg (k : Kernel) (ludev : ludev_s) (w : World) :
    Seg k w (ludev_loop_body k ludev w).2 (ludev_loop_body k ludev w).1 := by
  cases h : k.epoll_wait w.now with
  | fail e =>
    by_cases he : e = EINTR
    · subst he
      rw [loop_body_eintr k ludev w h]
      exact Seg.failed k w w none _ _ _ (Seg.refl k w none) (by simp) (by simp [Action.isRead])
    · rw [loop_body_wait_fail k ludev w e h he]
      exact Seg.emit k w _ none _ _
        (Seg.failed k w w none none _ _ (Seg.refl k w none) (by simp) (by simp [Action.isRead]))
        (by simp) (by simp [Action.isRead])
  | ok ready =>
    have hwait : Seg k w (w.emit (.epoll_wait ludev.epollfd 8 (-1))) none :=
      Seg.emit k w w none none _ (Seg.refl k w none) (by simp) (by simp [Action.isRead])
    by_cases hne : ready = []
    · subst hne
      rw [loop_body_wait_empty k ludev w h]
      exact Seg.emit k w _ none _ _ hwait (by simp) (by simp [Action.isRead])
    · have hh := handle_events_seg k ludev (ready.take 8) ((ready.take 8).length : Int)
        (w.emit (.epoll_wait ludev.epollfd 8 (-1)))
      have hall := Seg.trans k w _ _ _ _ hwait (by simp) hh
      rcases handle_events_ret k ludev (ready.take 8) ((ready.take 8).length : Int)
        (w.emit (.epoll_wait ludev.epollfd 8 (-1))) with hz | hz
      · rw [loop_body_batch_ok k ludev w ready h hne hz]
        rw [hz] at hall
        obtain ⟨added, ht, hf⟩ := hall
        exact ⟨added, ht, fun j a hj hr hfail => absurd (hf j a hj hr hfail).1 (by decide)⟩
      · rw [loop_body_batch_fail k ludev w ready h hne (by rw [hz]; decide)]
        rw [hz] at hall
        exact Seg.log k w _ _ _ hall (by simp [Action.isErrLog])

theorem loop_seg (k : Kernel) (ludev : ludev_s) :
    ∀ (fuel : Nat) (w : World),
      Seg k w (ludev_loop k ludev fuel w).2 (ludev_loop k ludev fuel w).1
  | 0, w => by
    simp only [ludev_loop]
    exact Seg.refl k w _
  | fuel + 1, w => by
    have hb := loop_body_seg k ludev w
    rcases loop_body_ret k ludev w with h | h
    · rw [loop_step_return k ludev w (-1) h fuel]
      rw [h] at hb
      exact hb
    · rw [loop_step_continue k ludev w h fuel]
      rw [h] at hb
      exact Seg.trans k w _ _ _ _ hb (by simp) (loop_seg k ludev fuel _)

/-! ## Initialisation and `main` -/

theorem loop_ret (k : Kernel) (ludev : ludev_s) :
    ∀ (fuel : Nat) (w : World),
      (ludev_loop k ludev fuel w).1 = some (-1) ∨ (ludev_loop k ludev fuel w).1 = none
  | 0, w => by simp [ludev_loop]
  | fuel + 1, w => by
    rcases loop_body_ret k ludev w with h | h
    · rw [loop_step_return k ludev w (-1) h fuel]
      simp
    · rw [loop_step_continue k ludev w h fuel]
      exact loop_ret k ludev fuel _

theorem init_ok (S : Int) (k : Kernel) (ludev : ludev_s) (w : World) (fd : Nat)
    (h : k.epoll_create1 w.now = .ok fd) :
    ludev_init S k ludev w =
      (0, ⟨S, fd, ludev.netlinkfd⟩, w.emit (.epoll_create1 EPOLL_CLOEXEC)) := by
  have hne : ¬ ((-1 : Int) = (fd : Int)) := by omega
  simp [ludev_init, sys_epoll_create1, h, hne]

theorem init_fail (S : Int) (k : Kernel) (ludev : ludev_s) (w : World) (e : Int)
    (h : k.epoll_create1 w.now = .fail e) :
    ludev_init S k ludev w =
      (-1, ⟨S, -1, ludev.netlinkfd⟩, (w.failed (.epoll_create1 EPOLL_CLOEXEC) e).emit
        (.syslog LOG_ERR "%s:%d:%s: epoll_create1: %s"
          [.file, .line 144, .func "ludev_init", .strerror e])) := by
  simp [ludev_init, sys_epoll_create1, h]

theorem main_eq (S : Int) (k : Kernel) (fuel : Nat) :
    main S k fuel =
      if -1 = (ludev_init S k ⟨0, 0, 0⟩ world_init).1 then
        (some (-1), (ludev_init S k ⟨0, 0, 0⟩ world_init).2.2.emit
          (.syslog LOG_ERR "%s:%d:%s: ludev_init returned -1"
            [.file, .line 228, .func "main"]))
      else
        match ludev_loop k (loop_entry S k).1 fuel (loop_entry S k).2 with
        | (some ret, w) =>
          if -1 = ret then
            (some (-1), w.emit (.syslog LOG_ERR "%s:%d:%s: ludev_loop returned -1"
              [.file, .line 239, .func "main"]))
          else
            (some 0, w)
        | (none, w) => (none, w) := by
  rfl

theorem main_init_fail (S : Int) (k : Kernel) (fuel : Nat) (e : Int)
    (h : k.epoll_create1 1 = .fail e) :
    main S k fuel =
      (some (-1), ((world_init.failed (.epoll_create1 EPOLL_CLOEXEC) e).emit
        (.syslog LOG_ERR "%s:%d:%s: epoll_create1: %s"
          [.file, .line 144, .func "ludev_init", .strerror e])).emit
        (.syslog LOG_ERR "%s:%d:%s: ludev_init returned -1"
          [.file, .line 228, .func "main"])) := by
  rw [main_eq, init_fail S k _ world_init e h]
  simp

theorem main_loop_returned (S : Int) (k : Kernel) (fuel : Nat) (fd : Nat)
    (h : k.epoll_create1 1 = .ok fd)
    (hl : (ludev_loop k (loop_entry S k).1 fuel (loop_entry S k).2).1 = some (-1)) :
    main S k fuel =
      (some (-1), (ludev_loop k (loop_entry S k).1 fuel (loop_entry S k).2).2.emit
        (.syslog LOG_ERR "%s:%d:%s: ludev_loop returned -1"
          [.file, .line 239, .func "main"])) := by
  have hb : ludev_loop k (loop_entry S k).1 fuel (loop_entry S k).2 =
      (some (-1), (ludev_loop k (loop_entry S k).1 fuel (loop_entry S k).2).2) := by
    rw [← hl]
  rw [main_eq, init_ok S k _ world_init fd h, hb]
  simp

theorem main_loop_running (S : Int) (k : Kernel) (fuel : Nat) (fd : Nat)
    (h : k.epoll_create1 1 = .ok fd)
    (hl : (ludev_loop k (loop_entry S k).1 fuel (loop_entry S k).2).1 = none) :
    main S k fuel = (none, (ludev_loop k (loop_entry S k).1 fuel (loop_entry S k).2).2) := by
  have hb : ludev_loop k (loop_entry S k).1 fuel (loop_entry S k).2 =
      (none, (ludev_loop k (loop_entry S k).1 fuel (loop_entry S k).2).2) := by
    rw [← hl]
  rw [main_eq, init_ok S k _ world_init fd h, hb]
  simp

theorem main_ret (S : Int) (k : Kernel) (fuel : Nat) :
    (main S k fuel).1 = some (-1) ∨ (main S k fuel).1 = none := by
  cases h : k.epoll_create1 1 with
  | fail e => rw [main_init_fail S k fuel e h]; simp
  | ok fd =>
    rcases loop_ret k (loop_entry S k).1 fuel (loop_entry S k).2 with hl | hl
    · rw [main_loop_returned S k fuel fd h hl]; simp
    · rw [main_loop_running S k fuel fd h hl]; simp

theorem open_null (S : Int) (k : Kernel) (w : World) :
    ludev_netlink_open S k none w =
      (-1, none, w.emit (.syslog LOG_ERR "%s:%d:%s: ludev pointer is NULL"
        [.file, .line 160, .func "ludev_netlink_open"])) := rfl

theorem open_sentinel (S : Int) (k : Kernel) (l : ludev_s) (w : World)
    (hs : S ≠ l.sentinel) :
    ludev_netlink_open S k (some l) w =
      (-1, some l, w.emit (.syslog LOG_ERR "%s:%d:%s: sentinel is wrong"
        [.file, .line 164, .func "ludev_netlink_open"])) := by
  simp [ludev_netlink_open, hs]

theorem open_socket_fail (S : Int) (k : Kernel) (l : ludev_s) (w : World)
    (hs : S = l.sentinel) (e : Int) (hsock : k.socket w.now = .fail e) :
    ludev_netlink_open S k (some l) w =
      (-1, some ⟨l.sentinel, l.epollfd, -1⟩,
        (w.failed (.socket AF_NETLINK (SOCK_RAW ||| SOCK_CLOEXEC ||| SOCK_NONBLOCK)
          NETLINK_KOBJECT_UEVENT) e).emit
          (.syslog LOG_ERR "%s:%d:%s: socket: %s"
            [.file, .line 175, .func "ludev_netlink_open", .strerror e])) := by
  simp [ludev_netlink_open, hs, sys_socket, hsock]

theorem open_bind_fail (S : Int) (k : Kernel) (l : ludev_s) (w : World)
    (hs : S = l.sentinel) (fd : Nat) (hsock : k.socket w.now = .ok fd) (e : Int)
    (hbind : k.bind (w.now + 2) = .fail e) :
    ludev_netlink_open S k (some l) w =
      (-1, some ⟨l.sentinel, l.epollfd, fd⟩,
        ⟨e, w.trace ++ (open_calls l.epollfd fd (k.getpid (w.now + 1))).take 3 ++
          [.syslog LOG_ERR "%s:%d:%s: bind: %s"
            [.file, .line 191, .func "ludev_netlink_open", .strerror e]]⟩) := by
  have hne : ¬ ((-1 : Int) = (fd : Int)) := by omega
  have hb : k.bind (w.now + 1 + 1) = .fail e := hbind
  simp only [ludev_netlink_open, hs, sys_socket, hsock, hne, sys_getpid, sys_bind, hb,
    World.emit_now, World.failed_now, ne_eq, not_true_eq_false, if_false, if_true]
  simp [open_calls, World.emit, World.failed]

theorem open_add_fail (S : Int) (k : Kernel) (l : ludev_s) (w : World)
    (hs : S = l.sentinel) (fd : Nat) (hsock : k.socket w.now = .ok fd) (u : Unit)
    (hbind : k.bind (w.now + 2) = .ok u) (e : Int)
    (hctl : k.epoll_ctl (w.now + 3) = .fail e) :
    ludev_netlink_open S k (some l) w =
      (-1, some ⟨l.sentinel, l.epollfd, fd⟩,
        ⟨e, w.trace ++ open_calls l.epollfd fd (k.getpid (w.now + 1)) ++
          [.syslog LOG_ERR "%s:%d:%s: epoll_ctl: %s"
            [.file, .line 208, .func "ludev_netlink_open", .strerror e]]⟩) := by
  have hne : ¬ ((-1 : Int) = (fd : Int)) := by omega
  have hb : k.bind (w.now + 1 + 1) = .ok u := hbind
  have hc : k.epoll_ctl (w.now + 1 + 1 + 1) = .fail e := hctl
  have h10 : ¬ ((-1 : Int) = 0) := by decide
  simp only [ludev_netlink_open, hs, sys_socket, hsock, hne, sys_getpid, sys_bind, hb,
    sys_epoll_ctl, hc, h10,
    World.emit_now, World.failed_now, ne_eq, not_true_eq_false, if_false, if_true]
  simp [open_calls, World.emit, World.failed]

theorem open_ok (S : Int) (k : Kernel) (l : ludev_s) (w : World)
    (hs : S = l.sentinel) (fd : Nat) (hsock : k.socket w.now = .ok fd) (u : Unit)
    (hbind : k.bind (w.now + 2) = .ok u) (v : Unit)
    (hctl : k.epoll_ctl (w.now + 3) = .ok v) :
    ludev_netlink_open S k (some l) w =
      (0, some ⟨l.sentinel, l.epollfd, fd⟩,
        ⟨w.errno, w.trace ++ open_calls l.epollfd fd (k.getpid (w.now + 1))⟩) := by
  have hne : ¬ ((-1 : Int) = (fd : Int)) := by omega
  have hb : k.bind (w.now + 1 + 1) = .ok u := hbind
  have hc : k.epoll_ctl (w.now + 1 + 1 + 1) = .ok v := hctl
  have h10 : ¬ ((-1 : Int) = 0) := by decide
  simp only [ludev_netlink_open, hs, sys_socket, hsock, hne, sys_getpid, sys_bind, hb,
    sys_epoll_ctl, hc, h10,
    World.emit_now, World.failed_now, ne_eq, not_true_eq_false, if_false, if_true]
  simp [open_calls, World.emit, World.failed]

/-- Every call `ludev_netlink_open` issues is appended to the trace; none is
a `read`, and each `epoll_ctl` among them is an `EPOLL_CTL_ADD` with the
one-shot interest mask. -/
theorem netlink_open_calls (S : Int) (k : Kernel) (p : Option ludev_s) (w : World) :
    ∃ added, (ludev_netlink_open S k p w).2.2.trace = w.trace ++ added ∧
      ∀ a ∈ added, a.isRead = false ∧
        ∀ ep op fd ev, a = .epoll_ctl ep op fd ev →
          op = EPOLL_CTL_ADD ∧ ev.events = EPOLLIN ||| EPOLLERR ||| EPOLLHUP ||| EPOLLONESHOT := by
  cases p with
  | none => exact ⟨[_], rfl, by simp [Action.isRead]⟩
  | some l =>
    by_cases hs : S = l.sentinel
    · cases hsock : k.socket w.now with
      | fail e =>
        rw [open_socket_fail S k l w hs e hsock]
        exact ⟨_ ++ _, List.append_assoc _ _ _, by simp [Action.isRead]⟩
      | ok fd =>
        cases hbind : k.bind (w.now + 2) with
        | fail e =>
          rw [open_bind_fail S k l w hs fd hsock e hbind]
          exact ⟨_, by simp only [List.append_assoc]; rfl, by simp [Action.isRead, open_calls]⟩
        | ok u =>
          cases hctl : k.epoll_ctl (w.now + 3) with
          | fail e =>
            rw [open_add_fail S k l w hs fd hsock u hbind e hctl]
            refine ⟨_, by simp only [List.append_assoc]; rfl, ?_⟩
            simp only [Action.isRead, open_calls]
            simp
            intro ep op fd1 ev _ h2 _ h4
            exact ⟨h2.symm, by rw [← h4]⟩
          | ok v =>
            rw [open_ok S k l w hs fd hsock u hbind v hctl]
            refine ⟨_, rfl, ?_⟩
            simp only [Action.isRead, open_calls]
            simp
            intro ep op fd1 ev _ h2 _ h4
            exact ⟨h2.symm, by rw [← h4]⟩
    · rw [open_sentinel S k l w hs]
      exact ⟨[_], rfl, by simp [Action.isRead]⟩

theorem loop_entry_no_read (S : Int) (k : Kernel) :
    ∃ added, (loop_entry S k).2.trace = added ∧ ∀ a ∈ added, a.isRead = false := by
  refine ⟨_, rfl, ?_⟩
  obtain ⟨added, ht, hq⟩ := netlink_open_calls S k
    (some (ludev_init S k ⟨0, 0, 0⟩ world_init).2.1) (ludev_init S k ⟨0, 0, 0⟩ world_init).2.2
  have hinit : ∀ a ∈ (ludev_init S k ⟨0, 0, 0⟩ world_init).2.2.trace, a.isRead = false := by
    cases h : k.epoll_create1 world_init.now with
    | ok fd => rw [init_ok S k _ world_init fd h]; simp [world_init, Action.isRead]
    | fail e => rw [init_fail S k _ world_init e h]; simp [world_init, Action.isRead]
  have hopen : ∀ a ∈ (ludev_netlink_open S k
      (some (ludev_init S k ⟨0, 0, 0⟩ world_init).2.1)
      (ludev_init S k ⟨0, 0, 0⟩ world_init).2.2).2.2.trace, a.isRead = false := by
    rw [ht]
    intro a ha
    rcases List.mem_append.mp ha with ha | ha
    · exact hinit a ha
    · exact (hq a ha).1
  intro a ha
  have hrw : (loop_entry S k).2 =
      if -1 = (ludev_netlink_open S k (some (ludev_init S k ⟨0, 0, 0⟩ world_init).2.1)
          (ludev_init S k ⟨0, 0, 0⟩ world_init).2.2).1 then
        (ludev_netlink_open S k (some (ludev_init S k ⟨0, 0, 0⟩ world_init).2.1)
          (ludev_init S k ⟨0, 0, 0⟩ world_init).2.2).2.2.emit
          (.syslog LOG_ERR "%s:%d:%s: ludev_netlink_open returned -1"
            [.file, .line 234, .func "main"])
      else
        (ludev_netlink_open S k (some (ludev_init S k ⟨0, 0, 0⟩ world_init).2.1)
          (ludev_init S k ⟨0, 0, 0⟩ world_init).2.2).2.2 := rfl
  rw [hrw] at ha
  split at ha
  · simp only [World.emit_trace] at ha
    rcases List.mem_append.mp ha with ha | ha
    · exact hopen a ha
    · simp at ha
      rw [ha]
      rfl
  · exact hopen a ha

/-- Every failing `read` of a run of `main` is fatal. -/
theorem main_seg (S : Int) (k : Kernel) (fuel : Nat) :
    FatalReads k 0 (main S k fuel).2.trace (main S k fuel).1 := by
  have key : Seg k ⟨0, []⟩ (main S k fuel).2 (main S k fuel).1 := by
    cases h : k.epoll_create1 1 with
    | fail e =>
      rw [main_init_fail S k fuel e h]
      exact Seg.of_no_read k _ _ _ _ (List.nil_append _).symm
        (by simp [world_init, Action.isRead])
    | ok fd =>
      obtain ⟨added, ht, hno⟩ := loop_entry_no_read S k
      have hentry : Seg k ⟨0, []⟩ (loop_entry S k).2 none :=
        Seg.of_no_read k _ _ _ added (by simpa using ht) hno
      have hloop := loop_seg k (loop_entry S k).1 fuel (loop_entry S k).2
      have hall := Seg.trans k _ _ _ _ _ hentry (by simp) hloop
      rcases loop_ret k (loop_entry S k).1 fuel (loop_entry S k).2 with hl | hl
      · rw [main_loop_returned S k fuel fd h hl]
        rw [hl] at hall
        exact Seg.log k _ _ _ _ hall (by simp [Action.isErrLog])
      · rw [main_loop_running S k fuel fd h hl]
        rw [hl] at hall
        exact hall
  obtain ⟨added, ht, hf⟩ := key
  simp only [List.nil_append] at ht
  rw [ht]
  simpa [World.now] using hf

theorem Seg.at_position (k : Kernel) (w w2 : World) (s : Option Int) (h : Seg k w w2 s)
    (t : Nat) (a : Action) (ht : w.now ≤ t) (hget : w2.trace[t]? = some a)
    (hr : a.isRead = true) (hfail : k.read_fails t = true) :
    s = some (-1) ∧ ∀ b ∈ w2.trace.drop (t + 1), b.isErrLog = true := by
  obtain ⟨added, htr, hf⟩ := h
  have hlen : w.trace.length ≤ t := ht
  rw [htr, List.getElem?_append_right hlen] at hget
  have hidx : w.now + (t - w.trace.length) = t := by
    simp only [World.now]
    omega
  have := hf (t - w.trace.length) a hget hr (by rw [hidx]; exact hfail)
  refine ⟨this.1, fun b hb => this.2 b ?_⟩
  rw [htr, List.drop_append_eq_append_drop, List.drop_eq_nil_of_le (by omega)] at hb
  have hi : t + 1 - w.trace.length = t - w.trace.length + 1 := by omega
  rw [hi] at hb
  simpa using hb

theorem read_fails_cases (k : Kernel) (t : Nat) (h : k.read_fails t = true) :
    k.read t = .ok [] ∨ ∃ e, k.read t = .fail e := by
  unfold Kernel.read_fails at h
  split at h
  · left; assumption
  · exact absurd h (by simp)
  · right; exact ⟨_, by assumption⟩

theorem loop_body_first_call (k : Kernel) (ludev : ludev_s) (w : World) :
    ∃ rest, (ludev_loop_body k ludev w).2.trace =
      w.trace ++ .epoll_wait ludev.epollfd 8 (-1) :: rest := by
  cases h : k.epoll_wait w.now with
  | fail e =>
    by_cases he : e = EINTR
    · subst he
      rw [loop_body_eintr k ludev w h]
      exact ⟨[], rfl⟩
    · rw [loop_body_wait_fail k ludev w e h he]
      exact ⟨[_], List.append_assoc _ _ _⟩
  | ok ready =>
    by_cases hne : ready = []
    · subst hne
      rw [loop_body_wait_empty k ludev w h]
      exact ⟨[_], List.append_assoc _ _ _⟩
    · obtain ⟨added, ht, _⟩ := handle_events_seg k ludev (ready.take 8)
        ((ready.take 8).length : Int) (w.emit (.epoll_wait ludev.epollfd 8 (-1)))
      by_cases hz : (ludev_epoll_handle_events k ludev (ready.take 8)
          ((ready.take 8).length : Int) (w.emit (.epoll_wait ludev.epollfd 8 (-1)))).1 = 0
      · rw [loop_body_batch_ok k ludev w ready h hne hz, ht]
        exact ⟨added, List.append_assoc _ _ _⟩
      · rw [loop_body_batch_fail k ludev w ready h hne hz]
        refine ⟨added ++ [.syslog LOG_ERR "%s:%d:%s: ludev_epoll_handle_events returned -1"
          [.file, .line 125, .func "ludev_loop"]], ?_⟩
        simp only [World.emit_trace, ht, List.append_assoc, List.singleton_append,
          List.cons_append, List.nil_append]

/-! ## C3 -/

/-- C3: when the `read` of `ludev_epoll_event_netlinkfd` returns 0 or -1,
the handler returns -1 and the only calls it issues are the `read` and one
`LOG_ERR` log (no `epoll_ctl`, no data log).  The failure propagates: in every
run of `ludev_epoll_handle_events`, of `ludev_loop` and of `main` in which
such a `read` is issued, the function returns -1 and every call after that
`read` is a `LOG_ERR` log, so no re-arm and no data log follows. -/
theorem read_failure_is_fatal (S : Int) (k : Kernel) :
    (∀ ludev event w, k.read_fails w.now = true →
      (ludev_epoll_event_netlinkfd k ludev event w).1 = -1 ∧
      ∃ log, log.isErrLog = true ∧
        (ludev_epoll_event_netlinkfd k ludev event w).2.since w =
          [.read ludev.netlinkfd 8192, log]) ∧
    (∀ ludev evs n w t a, w.now ≤ t →
      (ludev_epoll_handle_events k ludev evs n w).2.trace[t]? = some a →
      a.isRead = true → k.read_fails t = true →
      (ludev_epoll_handle_events k ludev evs n w).1 = -1 ∧
      ∀ b ∈ (ludev_epoll_handle_events k ludev evs n w).2.trace.drop (t + 1),
        b.isErrLog = true) ∧
    (∀ ludev fuel w t a, w.now ≤ t →
      (ludev_loop k ludev fuel w).2.trace[t]? = some a →
      a.isRead = true → k.read_fails t = true →
      (ludev_loop k ludev fuel w).1 = some (-1) ∧
      ∀ b ∈ (ludev_loop k ludev fuel w).2.trace.drop (t + 1), b.isErrLog = true) ∧
    (∀ fuel t a, (main S k fuel).2.trace[t]? = some a →
      a.isRead = true → k.read_fails t = true →
      (main S k fuel).1 = some (-1) ∧
      ∀ b ∈ (main S k fuel).2.trace.drop (t + 1), b.isErrLog = true) := by
  refine ⟨fun ludev event w hfail => ?_, fun ludev evs n w t a ht hget hr hfail => ?_,
    fun ludev fuel w t a ht hget hr hfail => ?_, fun fuel t a hget hr hfail => ?_⟩
  · rcases read_fails_cases k w.now hfail with h0 | ⟨e, he⟩
    · rw [netlinkfd_read_zero k ludev event w h0]
      exact ⟨rfl, .syslog LOG_ERR "%s:%d:%s: read 0 bytes"
        [.file, .line 34, .func "ludev_epoll_event_netlinkfd"], rfl, by simp [World.since]⟩
    · rw [netlinkfd_read_fail k ludev event w e he]
      exact ⟨rfl, .syslog LOG_ERR "%s:%d:%s: read: %s"
        [.file, .line 30, .func "ludev_epoll_event_netlinkfd", .strerror e], rfl,
        by simp [World.since]⟩
  · have := Seg.at_position k w _ _ (handle_events_seg k ludev evs n w) t a ht hget hr hfail
    exact ⟨by simpa using this.1, this.2⟩
  · exact Seg.at_position k w _ _ (loop_seg k ludev fuel w) t a ht hget hr hfail
  · have := main_seg S k fuel t a hget hr (by simpa using hfail)
    exact this

/-- Witness for C3: the channel is registered, the first
wait reports it ready and the `read` (call number 7 of the run) fails with
`EACCES`; `main` returns -1 and only error logs follow the `read`. -/
theorem read_failure_is_fatal_witness :
    (main 7 kernelReadDenied 1).2.trace[7]? = some (.read 4 8192) ∧
    kernelReadDenied.read_fails 7 = true ∧
    (main 7 kernelReadDenied 1).1 = some (-1) ∧
    ∀ b ∈ (main 7 kernelReadDenied 1).2.trace.drop (7 + 1), b.isErrLog = true :=
  ⟨by decide, by decide,
    (read_failure_is_fatal 7 kernelReadDenied).2.2.2 1 7 (.read 4 8192) (by decide) rfl
      (by decide)⟩

/-! ## C6 -/

/-- C6: one pass of the loop of `ludev_loop` returns -1 exactly when
`epoll_wait` fails with an errno other than `EINTR`, or reports zero ready
records without error, or `ludev_epoll_handle_events` returns non-zero (which
is always -1); it goes back to the head of the loop exactly when the wait was
interrupted (`EINTR`) or a non-empty batch was handled with result 0.  There
is no third outcome.  After a pass that returns -1 `ludev_loop` has returned
-1; after a pass that continues, `ludev_loop` runs the next pass, whose first
call is the wait again. -/
theorem loop_pass_outcome (k : Kernel) (ludev : ludev_s) (w : World) :
    ((ludev_loop_body k ludev w).1 = some (-1) ↔
      (∃ e, k.epoll_wait w.now = .fail e ∧ e ≠ EINTR) ∨
      k.epoll_wait w.now = .ok [] ∨
      (∃ ready, k.epoll_wait w.now = .ok ready ∧ ready ≠ [] ∧
        (ludev_epoll_handle_events k ludev (ready.take 8) ((ready.take 8).length : Int)
          (w.emit (.epoll_wait ludev.epollfd 8 (-1)))).1 ≠ 0)) ∧
    ((ludev_loop_body k ludev w).1 = none ↔
      k.epoll_wait w.now = .fail EINTR ∨
      (∃ ready, k.epoll_wait w.now = .ok ready ∧ ready ≠ [] ∧
        (ludev_epoll_handle_events k ludev (ready.take 8) ((ready.take 8).length : Int)
          (w.emit (.epoll_wait ludev.epollfd 8 (-1)))).1 = 0)) ∧
    ((ludev_loop_body k ludev w).1 = some (-1) ∨ (ludev_loop_body k ludev w).1 = none) ∧
    (∀ evs n w1, (ludev_epoll_handle_events k ludev evs n w1).1 = 0 ∨
      (ludev_epoll_handle_events k ludev evs n w1).1 = -1) ∧
    ((ludev_loop_body k ludev w).1 = some (-1) →
      ∀ fuel, ludev_loop k ludev (fuel + 1) w = (some (-1), (ludev_loop_body k ludev w).2)) ∧
    ((ludev_loop_body k ludev w).1 = none →
      (∀ fuel, ludev_loop k ludev (fuel + 1) w =
        ludev_loop k ludev fuel (ludev_loop_body k ludev w).2) ∧
      ∃ rest, (ludev_loop_body k ludev (ludev_loop_body k ludev w).2).2.trace =
        (ludev_loop_body k ludev w).2.trace ++ .epoll_wait ludev.epollfd 8 (-1) :: rest) := by
  refine ⟨?_, ?_, loop_body_ret k ludev w, fun evs n w1 => handle_events_ret k ludev evs n w1,
    fun h fuel => loop_step_return k ludev w (-1) h fuel,
    fun h => ⟨fun fuel => loop_step_continue k ludev w h fuel,
      loop_body_first_call k ludev _⟩⟩
  · cases h : k.epoll_wait w.now with
    | fail e =>
      by_cases he : e = EINTR
      · subst he
        rw [loop_body_eintr k ludev w h]
        simp
      · rw [loop_body_wait_fail k ludev w e h he]
        simp [he]
    | ok ready =>
      by_cases hne : ready = []
      · subst hne
        rw [loop_body_wait_empty k ludev w h]
        simp
      · by_cases hz : (ludev_epoll_handle_events k ludev (ready.take 8)
            ((ready.take 8).length : Int) (w.emit (.epoll_wait ludev.epollfd 8 (-1)))).1 = 0
        · rw [loop_body_batch_ok k ludev w ready h hne hz]
          simp only [reduceCtorEq, false_iff, not_or, not_exists, not_and]
          refine ⟨fun e he => by simp at he, fun hr => hne (by injection hr),
            fun r hr _ => ?_⟩
          have : r = ready := by
            injection hr with hr
            exact hr.symm
          subst this
          simpa using hz
        · rw [loop_body_batch_fail k ludev w ready h hne hz]
          simp only [true_iff]
          exact Or.inr (Or.inr ⟨ready, rfl, hne, hz⟩)
  · cases h : k.epoll_wait w.now with
    | fail e =>
      by_cases he : e = EINTR
      · subst he
        rw [loop_body_eintr k ludev w h]
        simp
      · rw [loop_body_wait_fail k ludev w e h he]
        simp [he]
    | ok ready =>
      by_cases hne : ready = []
      · subst hne
        rw [loop_body_wait_empty k ludev w h]
        simp
      · by_cases hz : (ludev_epoll_handle_events k ludev (ready.take 8)
            ((ready.take 8).length : Int) (w.emit (.epoll_wait ludev.epollfd 8 (-1)))).1 = 0
        · rw [loop_body_batch_ok k ludev w ready h hne hz]
          simp only [true_iff]
          exact Or.inr ⟨ready, rfl, hne, hz⟩
        · rw [loop_body_batch_fail k ludev w ready h hne hz]
          simp only [reduceCtorEq, false_iff, not_or, not_exists, not_and]
          refine ⟨by simp, fun r hr _ => ?_⟩
          have : r = ready := by
            injection hr with hr
            exact hr.symm
          subst this
          exact hz

/-- Witness for C6: a wait that succeeds with zero records ends the loop with
-1, and a wait that delivers one record of the channel, handled with success,
leaves the loop running. -/
theorem loop_pass_outcome_witness :
    (ludev_loop_body kernelEmptyWait ⟨0, 3, 4⟩ ⟨0, []⟩).1 = some (-1) ∧
    (ludev_loop_body kernelText ⟨0, 3, 4⟩ ⟨0, []⟩).1 = none :=
  ⟨(loop_pass_outcome kernelEmptyWait ⟨0, 3, 4⟩ ⟨0, []⟩).1.mpr (Or.inr (Or.inl rfl)),
    (loop_pass_outcome kernelText ⟨0, 3, 4⟩ ⟨0, []⟩).2.1.mpr
      (Or.inr ⟨[⟨EPOLLIN, ⟨4, 0⟩⟩], rfl, by decide, by decide⟩)⟩

/-! ## C7 -/

/-- C7: when `epoll_wait` returns -1 with errno `EINTR`, the pass of the loop
issues no other call than that wait (no `read`, no log, no `epoll_ctl`), does
not return, and `ludev_loop` goes on with the same Loop Context; the next call
it issues is `epoll_wait` with the same arguments (the same `epollfd`,
capacity 8, timeout -1). -/
theorem interrupted_wait_retries (k : Kernel) (ludev : ludev_s) (w : World)
    (h : k.epoll_wait w.now = .fail EINTR) :
    ludev_loop_body k ludev w =
      (none, w.failed (.epoll_wait ludev.epollfd 8 (-1)) EINTR) ∧
    (ludev_loop_body k ludev w).2.since w = [.epoll_wait ludev.epollfd 8 (-1)] ∧
    (∀ fuel, ludev_loop k ludev (fuel + 1) w =
      ludev_loop k ludev fuel (w.failed (.epoll_wait ludev.epollfd 8 (-1)) EINTR)) ∧
    ∃ rest, (ludev_loop_body k ludev
        (w.failed (.epoll_wait ludev.epollfd 8 (-1)) EINTR)).2.trace =
      (w.trace ++ [.epoll_wait ludev.epollfd 8 (-1)]) ++
        .epoll_wait ludev.epollfd 8 (-1) :: rest := by
  have hb := loop_body_eintr k ludev w h
  refine ⟨hb, by rw [hb]; simp [World.since], fun fuel => ?_, ?_⟩
  · have := loop_step_continue k ludev w (by rw [hb]) fuel
    rw [this, hb]
  · exact loop_body_first_call k ludev _

/-- Witness for C7: two interrupted waits in a row
leave the loop running, and the trace holds the two waits and nothing else. -/
theorem interrupted_wait_retries_witness :
    ludev_loop kernelInterrupted ⟨0, 3, 4⟩ 2 ⟨0, []⟩ =
      (none, ⟨EINTR, [.epoll_wait 3 8 (-1), .epoll_wait 3 8 (-1)]⟩) :=
  ((interrupted_wait_retries kernelInterrupted ⟨0, 3, 4⟩ ⟨0, []⟩ rfl).2.2.1 1).trans
    (by decide)

/-! ## C8 -/

theorem read_ok_of_not_fails (k : Kernel) (t : Nat) (h : k.read_fails t = false) :
    ∃ bytes, k.read t = .ok bytes ∧ bytes ≠ [] ∧ k.read_bytes t = bytes.take 8192 := by
  unfold Kernel.read_fails at h
  unfold Kernel.read_bytes
  split at h
  · exact absurd h (by simp)
  · rename_i bytes hne hb
    exact ⟨bytes, hb, fun hnil => hne hnil, by rw [hb]⟩
  · exact absurd h (by simp)

/-- When every record is for the channel, every `read` yields bytes and every
re-arm succeeds, the first `i` records are handled one after the other. -/
theorem world_before_all_handled (k : Kernel) (ludev : ludev_s) (evs : List epoll_event)
    (w : World) (hid : ∀ e ∈ evs, e.data.fd = ludev.netlinkfd)
    (hread : ∀ i, i < evs.length → k.read_fails (w.now + 3 * i) = false)
    (hctl : ∀ i, i < evs.length → k.epoll_ctl (w.now + 3 * i + 2) = .ok ()) :
    ∀ i, i ≤ evs.length →
      (world_before k ludev evs w i).trace =
          w.trace ++ (List.range i).flatMap (handled k ludev evs w.now) ∧
        (world_before k ludev evs w i).now = w.now + 3 * i ∧
        ∀ j, j < i → result_at k ludev evs w j = 0
  | 0, _ => by simp [world_before]
  | i + 1, hi => by
    obtain ⟨htr, hnow, hres⟩ := world_before_all_handled k ludev evs w hid hread hctl i
      (by omega)
    have hlt : i < evs.length := by omega
    have hmem : evs.getD i default ∈ evs := by
      rw [List.getD_eq_getElem evs default hlt]
      exact List.getElem_mem hlt
    obtain ⟨bytes, hb, hne, hrb⟩ := read_ok_of_not_fails k _ (hread i hlt)
    have hd : ludev_epoll_event_dispatch k ludev (evs.getD i default)
        (world_before k ludev evs w i) =
        (0, (((world_before k ludev evs w i).emit (.read ludev.netlinkfd 8192)).emit
          (data_log (bytes.take 8192))).emit (rearm ludev (evs.getD i default))) := by
      rw [dispatch_match k ludev _ _ (hid _ hmem)]
      exact netlinkfd_rearmed k ludev _ _ bytes (by rw [hnow]; exact hb) hne ()
        (by rw [hnow]; exact hctl i hlt)
    have hstep : world_before k ludev evs w (i + 1) =
        (((world_before k ludev evs w i).emit (.read ludev.netlinkfd 8192)).emit
          (data_log (bytes.take 8192))).emit (rearm ludev (evs.getD i default)) := by
      show (ludev_epoll_event_dispatch k ludev (evs.getD i default)
        (world_before k ludev evs w i)).2 = _
      rw [hd]
    have hres_i : result_at k ludev evs w i = 0 := by
      show (ludev_epoll_event_dispatch k ludev (evs.getD i default)
        (world_before k ludev evs w i)).1 = _
      rw [hd]
    refine ⟨?_, ?_, fun j hj => ?_⟩
    · rw [hstep, List.range_succ, List.flatMap_append, List.flatMap_singleton]
      simp only [World.emit_trace, htr, handled, hrb, List.append_assoc, List.singleton_append,
        List.cons_append, List.nil_append]
    · rw [hstep]
      simp only [World.emit_now, hnow]
      omega
    · by_cases hji : j = i
      · rw [hji]; exact hres_i
      · exact hres j (by omega)

/-- C8: for a batch whose records all carry the channel's descriptor, with
every `read` returning N > 0 and every re-arm succeeding,
`ludev_epoll_handle_events` returns 0 and the calls it issues are exactly, for
each record in index order, one `read` of at most 8192 bytes, the log of the
data, and the `epoll_ctl` `EPOLL_CTL_MOD` re-arm for that record; the re-arm
for record i comes before the `read` for record i+1. -/
theorem channel_batch_calls (k : Kernel) (ludev : ludev_s) (epoll_events : List epoll_event)
    (w : World) (_hcap : epoll_events.length ≤ 8)
    (hid : ∀ e ∈ epoll_events, e.data.fd = ludev.netlinkfd)
    (hread : ∀ i, i < epoll_events.length → k.read_fails (w.now + 3 * i) = false)
    (hctl : ∀ i, i < epoll_events.length → k.epoll_ctl (w.now + 3 * i + 2) = .ok ()) :
    (ludev_epoll_handle_events k ludev epoll_events (epoll_events.length : Int) w).1 = 0 ∧
    (ludev_epoll_handle_events k ludev epoll_events (epoll_events.length : Int) w).2.since w =
      (List.range epoll_events.length).flatMap (handled k ludev epoll_events w.now) := by
  obtain ⟨htr, _, hres⟩ := world_before_all_handled k ludev epoll_events w hid hread hctl
    epoll_events.length (le_refl _)
  have hn : ((epoll_events.length : Int)).toNat = epoll_events.length := by simp
  have hrun := handle_events_for_all_ok k ludev epoll_events w epoll_events.length 0
    (fun m _ hm => hres m (by omega))
  have hrun2 : ludev_epoll_handle_events k ludev epoll_events (epoll_events.length : Int) w =
      (0, world_before k ludev epoll_events w epoll_events.length) := by
    unfold ludev_epoll_handle_events
    rw [hn]
    simpa using hrun
  rw [hrun2]
  refine ⟨rfl, ?_⟩
  simp only [World.since, htr]
  simp

/-- Witness for C8: two records for the channel delivered
by one wait; the first is read, logged and re-armed before the second is
read. -/
theorem channel_batch_calls_witness :
    (ludev_epoll_handle_events kernelText ⟨0, 3, 4⟩
        [⟨EPOLLIN, ⟨4, 0⟩⟩, ⟨EPOLLIN, ⟨4, 7⟩⟩] 2 ⟨0, []⟩).2.since ⟨0, []⟩ =
      [.read 4 8192, data_log [97, 98, 99], rearm ⟨0, 3, 4⟩ ⟨EPOLLIN, ⟨4, 0⟩⟩,
       .read 4 8192, data_log [97, 98, 99], rearm ⟨0, 3, 4⟩ ⟨EPOLLIN, ⟨4, 7⟩⟩] :=
  (channel_batch_calls kernelText ⟨0, 3, 4⟩ [⟨EPOLLIN, ⟨4, 0⟩⟩, ⟨EPOLLIN, ⟨4, 7⟩⟩] ⟨0, []⟩
    (by decide) (by decide) (by decide) (by decide)).2.trans (by decide)

/-! ## C9 -/

/-- C9: when the handler, reached through `ludev_epoll_event_dispatch`, reads
N > 0 bytes, the calls it issues are the `read`, the data log, then one
`epoll_ctl` `EPOLL_CTL_MOD` on `ludev->epollfd` whose target descriptor is
`ludev->netlinkfd`, whose mask is `EPOLLIN | EPOLLERR | EPOLLHUP |
EPOLLONESHOT` and whose data is the record's data, and no other `epoll_ctl`;
when that call succeeds the result is 0, when it fails the result is -1 (and
an error log follows).  Every `epoll_ctl` of `ludev_netlink_open` is an
`EPOLL_CTL_ADD` with that same mask, and the registration is issued once
`socket` and `bind` have succeeded. -/
theorem rearm_follows_log (S : Int) (k : Kernel) (ludev : ludev_s) (event : epoll_event)
    (w : World) (bytes : List Byte) (hfd : event.data.fd = ludev.netlinkfd)
    (hread : k.read w.now = .ok bytes) (hne : bytes ≠ []) :
    (∃ rest, (ludev_epoll_event_dispatch k ludev event w).2.since w =
        [.read ludev.netlinkfd 8192, data_log (bytes.take 8192),
         .epoll_ctl ludev.epollfd EPOLL_CTL_MOD ludev.netlinkfd
           ⟨EPOLLIN ||| EPOLLERR ||| EPOLLHUP ||| EPOLLONESHOT, event.data⟩] ++ rest ∧
        (∀ a ∈ rest, a.isCtl = false ∧ a.isErrLog = true) ∧
        ((∃ u, k.epoll_ctl (w.now + 2) = .ok u) →
          rest = [] ∧ (ludev_epoll_event_dispatch k ludev event w).1 = 0) ∧
        (∀ e, k.epoll_ctl (w.now + 2) = .fail e →
          rest.length = 1 ∧ (ludev_epoll_event_dispatch k ludev event w).1 = -1)) ∧
    (∀ p w0, ∀ a ∈ (ludev_netlink_open S k p w0).2.2.since w0,
      ∀ ep op fd ev, a = .epoll_ctl ep op fd ev →
        op = EPOLL_CTL_ADD ∧
          ev.events = EPOLLIN ||| EPOLLERR ||| EPOLLHUP ||| EPOLLONESHOT) ∧
    (∀ l w0 fd u, S = l.sentinel → k.socket w0.now = .ok fd → k.bind (w0.now + 2) = .ok u →
      Action.epoll_ctl l.epollfd EPOLL_CTL_ADD fd
          ⟨EPOLLIN ||| EPOLLERR ||| EPOLLHUP ||| EPOLLONESHOT, ⟨fd, 0⟩⟩ ∈
        (ludev_netlink_open S k (some l) w0).2.2.since w0) := by
  refine ⟨?_, fun p w0 a ha ep op fd ev hev => ?_, fun l w0 fd u hs hsock hbind => ?_⟩
  · rw [dispatch_match k ludev event w hfd]
    cases hctl : k.epoll_ctl (w.now + 2) with
    | ok u =>
      rw [netlinkfd_rearmed k ludev event w bytes hread hne u hctl]
      refine ⟨[], by simp [World.since, rearm, hfd], by simp, fun _ => ⟨rfl, rfl⟩,
        fun e he => by simp at he⟩
    | fail e =>
      rw [netlinkfd_rearm_fail k ludev event w bytes hread hne e hctl]
      refine ⟨[.syslog LOG_ERR "%s:%d:%s: epoll_ctl: %s"
          [.file, .line 50, .func "ludev_epoll_event_netlinkfd", .strerror e]],
        by simp [World.since, rearm, hfd], by simp [Action.isCtl, Action.isErrLog],
        fun ⟨u, hu⟩ => by simp at hu, fun _ _ => ⟨rfl, rfl⟩⟩
  · obtain ⟨added, ht, hq⟩ := netlink_open_calls S k p w0
    rw [World.since, ht] at ha
    simp only [List.drop_left] at ha
    exact (hq a ha).2 ep op fd ev hev
  · cases hctl : k.epoll_ctl (w0.now + 3) with
    | ok v =>
      rw [open_ok S k l w0 hs fd hsock u hbind v hctl]
      simp [World.since, open_calls]
    | fail e =>
      rw [open_add_fail S k l w0 hs fd hsock u hbind e hctl]
      simp [World.since, open_calls]

/-- Witness for C9: three bytes are read, logged, and the
channel is re-armed. -/
theorem rearm_follows_log_witness :
    ∃ rest, (ludev_epoll_event_dispatch kernelText ⟨0, 3, 4⟩ ⟨EPOLLIN, ⟨4, 5⟩⟩
        ⟨0, []⟩).2.since ⟨0, []⟩ =
      [.read 4 8192, data_log [97, 98, 99],
       .epoll_ctl 3 EPOLL_CTL_MOD 4
         ⟨EPOLLIN ||| EPOLLERR ||| EPOLLHUP ||| EPOLLONESHOT, ⟨4, 5⟩⟩] ++ rest :=
  (rearm_follows_log 0 kernelText ⟨0, 3, 4⟩ ⟨EPOLLIN, ⟨4, 5⟩⟩ ⟨0, []⟩ [97, 98, 99] rfl rfl
    (by decide)).1.elim fun rest h => ⟨rest, h.1⟩

/-! ## C10 -/

theorem loop_more_fuel (k : Kernel) (ludev : ludev_s) :
    ∀ (fuel : Nat) (w : World) (r : Int), (ludev_loop k ludev fuel w).1 = some r →
      ∀ more, ludev_loop k ludev (fuel + more) w = ludev_loop k ludev fuel w
  | 0, w, r, h => by simp [ludev_loop] at h
  | fuel + 1, w, r, h => by
    intro more
    have hadd : fuel + 1 + more = (fuel + more) + 1 := by omega
    rw [hadd]
    rcases loop_body_ret k ludev w with hb | hb
    · rw [loop_step_return k ludev w (-1) hb, loop_step_return k ludev w (-1) hb]
    · rw [loop_step_continue k ludev w hb] at h ⊢
      rw [loop_step_continue k ludev w hb]
      exact loop_more_fuel k ludev fuel _ r h more

/-- C10: whenever `main` returns, the status is -1, hence non-zero: `main`
returns -1 when `ludev_init` fails, -1 when `ludev_loop` returns -1, and
`ludev_loop` returns nothing else than -1, so `main` never reaches its
`return 0`; this holds whatever `ludev_netlink_open` returned.  A status, once
returned, does not depend on the number of passes allowed. -/
theorem main_status_nonzero (S : Int) (k : Kernel) :
    (∀ fuel r, (main S k fuel).1 = some r → r = -1 ∧ r ≠ 0) ∧
    (∀ fuel e, k.epoll_create1 1 = .fail e → (main S k fuel).1 = some (-1)) ∧
    (∀ fuel, (ludev_loop k (loop_entry S k).1 fuel (loop_entry S k).2).1 = some (-1) →
      (main S k fuel).1 = some (-1)) ∧
    (∀ ludev fuel w r, (ludev_loop k ludev fuel w).1 = some r → r = -1) ∧
    (∀ fuel r, (main S k fuel).1 = some r → ∀ more, (main S k (fuel + more)).1 = some r) := by
  refine ⟨fun fuel r h => ?_, fun fuel e h => by rw [main_init_fail S k fuel e h],
    fun fuel hl => ?_, fun ludev fuel w r h => ?_, fun fuel r h more => ?_⟩
  · rcases main_ret S k fuel with h1 | h1
    · rw [h1] at h
      injection h with h
      subst h
      exact ⟨rfl, by decide⟩
    · rw [h1] at h
      exact absurd h (by simp)
  · cases h : k.epoll_create1 1 with
    | fail e => rw [main_init_fail S k fuel e h]
    | ok fd => rw [main_loop_returned S k fuel fd h hl]
  · rcases loop_ret k ludev fuel w with h1 | h1
    · rw [h1] at h
      injection h with h
      exact h.symm
    · rw [h1] at h
      exact absurd h (by simp)
  · cases hc : k.epoll_create1 1 with
    | fail e =>
      rw [main_init_fail S k _ e hc]
      rw [main_init_fail S k _ e hc] at h
      exact h
    | ok fd =>
      rcases loop_ret k (loop_entry S k).1 fuel (loop_entry S k).2 with hl | hl
      · have hm := loop_more_fuel k (loop_entry S k).1 fuel (loop_entry S k).2 (-1) hl more
        rw [main_loop_returned S k fuel fd hc hl] at h
        rw [main_loop_returned S k (fuel + more) fd hc (by rw [hm]; exact hl)]
        exact h
      · rw [main_loop_running S k fuel fd hc hl] at h
        exact absurd h (by simp)

/-- Witness for C10: `epoll_create1` fails and `main`
returns -1; on another run the loop fails on a `read` and `main` returns -1. -/
theorem main_status_nonzero_witness :
    (main 7 kernelNoEpoll 0).1 = some (-1) ∧ ((-1 : Int) = -1 ∧ (-1 : Int) ≠ 0) ∧
    (main 7 kernelReadDenied 1).1 = some (-1) :=
  ⟨(main_status_nonzero 7 kernelNoEpoll).2.1 0 24 rfl,
    (main_status_nonzero 7 kernelNoEpoll).1 0 (-1) (by decide),
    (main_status_nonzero 7 kernelReadDenied).2.2.1 1 (by decide)⟩

/-! ## C2 -/

/-- C2 fails on the code: `socket` fails with `EMFILE`, `ludev_netlink_open`
returns -1, `main` logs it and still calls `ludev_loop`, whose
`epoll_wait` is issued on the multiplexer with no channel registered. -/
theorem main_enters_loop_after_failed_open :
    (ludev_netlink_open 7 kernelNoSocket (some ⟨7, 3, 0⟩)
      (world_init.emit (.epoll_create1 EPOLL_CLOEXEC))).1 = -1 ∧
    (main 7 kernelNoSocket 1).2.trace =
      [.openlog "ludev" (LOG_CONS ||| LOG_PID) LOG_USER,
       .epoll_create1 EPOLL_CLOEXEC,
       .socket AF_NETLINK (SOCK_RAW ||| SOCK_CLOEXEC ||| SOCK_NONBLOCK) NETLINK_KOBJECT_UEVENT,
       .syslog LOG_ERR "%s:%d:%s: socket: %s"
         [.file, .line 175, .func "ludev_netlink_open", .strerror 24],
       .syslog LOG_ERR "%s:%d:%s: ludev_netlink_open returned -1"
         [.file, .line 234, .func "main"],
       .epoll_wait 3 8 (-1)] ∧
    (main 7 kernelNoSocket 1).1 = none := by
  decide

end Ludev
